import Mathlib

/-!
Shallow embedding of the Pulse real-time chat backend
(`app/websocket/manager.py`, `app/core/rate_limiter.py`,
`app/services/chat.py`, `app/websocket/routes.py`).

Python dicts are modelled as association lists over `String` keys
(first-occurrence lookup; program-reachable states have unique keys),
Python sets of WebSocket handles as duplicate-free lists of `Nat`
connection ids, and timestamps (`time.monotonic()` / `datetime.utcnow()`)
as integers, since every property in scope is order-theoretic.
A connection's `send_json` either succeeds or raises; the raising
behaviour is abstracted by a predicate `failing : WS → Bool` on
connection handles (the payload does not influence delivery success).
-/

namespace Pulse

/-- WebSocket connection handle (opaque in the source). -/
abbrev WS := Nat

/-- `d.get(k)` on a Python dict modelled as an association list:
first entry whose key matches. -/
def lookupA {α : Type} (k : String) : List (String × α) → Option α
  | [] => none
  | (k₀, v) :: rest => if k₀ = k then some v else lookupA k rest

/-- `d[k] = v` on a Python dict: replace the first entry with key `k`,
or append a fresh entry. -/
def insertA {α : Type} (k : String) (v : α) : List (String × α) → List (String × α)
  | [] => [(k, v)]
  | (k₀, v₀) :: rest => if k₀ = k then (k, v) :: rest else (k₀, v₀) :: insertA k v rest

/-- `d.pop(k, None)` on a Python dict: drop the first entry with key `k`. -/
def eraseA {α : Type} (k : String) : List (String × α) → List (String × α)
  | [] => []
  | (k₀, v₀) :: rest => if k₀ = k then rest else (k₀, v₀) :: eraseA k rest

/-! ## Connection registry — `app/websocket/manager.py` (`ConnectionManager`) -/

/-- `Dict[user_id] -> Set[WebSocket]` (inner map of `active_connections`). -/
abbrev UserConns := List (String × List WS)

/-- `self.active_connections : Dict[conversation_id] -> Dict[user_id] -> Set[WebSocket]`. -/
abbrev Registry := List (String × UserConns)

/-- `ConnectionManager.connect` (manager.py:17-25): `setdefault` the
conversation map and the user's set, then `add` the connection
(set add: no duplicate inserted). -/
def connect (st : Registry) (cid uid : String) (ws : WS) : Registry :=
  let conv := (lookupA cid st).getD []
  let conns := (lookupA uid conv).getD []
  let conns₁ := if ws ∈ conns then conns else conns ++ [ws]
  insertA cid (insertA uid conns₁ conv) st

/-- `ConnectionManager.disconnect` (manager.py:27-46): remove the
connection if present, pop the user entry when its set empties, pop the
conversation entry when its map empties; early-return (state unchanged)
when the conversation or user entry is missing or falsy-empty. -/
def disconnect (st : Registry) (cid uid : String) (ws : WS) : Registry :=
  match lookupA cid st with
  | none => st
  | some conv =>
    if conv.isEmpty then st
    else
      match lookupA uid conv with
      | none => st
      | some conns =>
        if conns.isEmpty then st
        else
          let conns₁ := conns.erase ws
          let conv₁ := if conns₁.isEmpty then eraseA uid conv else insertA uid conns₁ conv
          if conv₁.isEmpty then eraseA cid st else insertA cid conv₁ st

/-- `ConnectionManager.get_user_connection_count` (manager.py:48-57):
total connections for `uid` summed across every conversation entry. -/
def get_user_connection_count (st : Registry) (uid : String) : Nat :=
  (st.map (fun p => ((lookupA uid p.2).getD []).length)).sum

/-- The source broadcasts iterate `conversation.items()` and a
`list(connections)` snapshot, attempting `send_json` on every pair. -/
def connPairs (conv : UserConns) : List (String × WS) :=
  conv.flatMap (fun p => p.2.map (fun ws => (p.1, ws)))

/-- The broadcast loop body (manager.py:67-73): try `send_json` on each
snapshot pair in order; a raising connection is appended to the
`disconnected` collection and iteration continues. Returns the pairs
attempted and the pairs collected as disconnected. -/
def sendPass (failing : WS → Bool) (pairs : List (String × WS)) :
    List (String × WS) × List (String × WS) :=
  pairs.foldl
    (fun acc p => (acc.1 ++ [p], if failing p.2 then acc.2 ++ [p] else acc.2))
    ([], [])

/-- Result of a broadcast call: the delivery attempts made (in iteration
order) and the registry state after the post-pass cleanup. -/
structure BroadcastResult where
  attempts : List (String × WS)
  state : Registry
deriving Repr

/-- `ConnectionManager.broadcast` (manager.py:59-76): deliver to every
connection of the conversation, then `disconnect` each collected failing
pair after the pass completes. No failure is propagated to the caller. -/
def broadcast (st : Registry) (cid : String) (failing : WS → Bool) : BroadcastResult :=
  match lookupA cid st with
  | none => ⟨[], st⟩
  | some conv =>
    if conv.isEmpty then ⟨[], st⟩
    else
      let pass := sendPass failing (connPairs conv)
      ⟨pass.1, pass.2.foldl (fun s p => disconnect s cid p.1 p.2) st⟩

/-- `if exclude_user_id and user_id == exclude_user_id` (manager.py:93):
Python truthiness — `None` and the empty string are falsy, so exclusion
applies only to a non-empty `exclude_user_id`. -/
def excludedUser (exclude : Option String) (uid : String) : Bool :=
  match exclude with
  | none => false
  | some e => !(e == "") && uid == e

/-- `ConnectionManager.broadcast_except` (manager.py:78-102): as
`broadcast` but skipping every user matched by `excludedUser`. -/
def broadcast_except (st : Registry) (cid : String) (failing : WS → Bool)
    (exclude : Option String) : BroadcastResult :=
  match lookupA cid st with
  | none => ⟨[], st⟩
  | some conv =>
    if conv.isEmpty then ⟨[], st⟩
    else
      let pass := sendPass failing (connPairs (conv.filter (fun p => !excludedUser exclude p.1)))
      ⟨pass.1, pass.2.foldl (fun s p => disconnect s cid p.1 p.2) st⟩

/-! ## Rate limiter — `app/core/rate_limiter.py` (`InMemoryRateLimiter`) -/

/-- `self._events : Dict[str, Deque[float]]` (a `defaultdict(deque)`). -/
abbrev RLState := List (String × List Int)

/-- Default limits from rate_limiter.py:38-42. -/
def WS_EVENT_LIMIT : Nat := 60
def WS_EVENT_WINDOW_SECONDS : Int := 30
def MESSAGE_EVENT_LIMIT : Nat := 20
def MESSAGE_EVENT_WINDOW_SECONDS : Int := 10

/-- `InMemoryRateLimiter.allow` (rate_limiter.py:17-29): the
`defaultdict` access materialises the key; instants strictly older than
`now - window_seconds` are popped from the front; if the retained count
reaches the limit the call is rejected without recording; otherwise the
new instant is appended.  The source's `if not events: pop` line sits
after the append and is kept here verbatim (it is unreachable). -/
def allow (st : RLState) (key : String) (limit : Nat) (window : Int) (now : Int) :
    Bool × RLState :=
  let events := (lookupA key st).getD []
  let cutoff := now - window
  let pruned := events.dropWhile (fun t => decide (t < cutoff))
  if limit ≤ pruned.length then
    (false, insertA key pruned st)
  else
    let appended := pruned ++ [now]
    if appended.isEmpty then (true, eraseA key st)
    else (true, insertA key appended st)

/-- A sequence of `allow` calls on one key at the given instants,
threading the limiter state; returns the results in order. -/
def runCalls (key : String) (limit : Nat) (window : Int) :
    RLState → List Int → List Bool × RLState
  | st, [] => ([], st)
  | st, t :: rest =>
    let r := allow st key limit window t
    let rr := runCalls key limit window r.2 rest
    (r.1 :: rr.1, rr.2)

/-- The recorded queue for a key (empty when the key is absent). -/
def queueOf (st : RLState) (key : String) : List Int :=
  (lookupA key st).getD []

/-- No key of the limiter state maps to an empty timestamp queue. -/
def noEmptyQueues (st : RLState) : Prop :=
  ∀ p ∈ st, p.2 ≠ []

instance : DecidablePred noEmptyQueues := fun st =>
  inferInstanceAs (Decidable (∀ p ∈ st, p.2 ≠ []))

/-! ## Chat service — `app/services/chat.py` (`ChatService`) -/

/-- Python `str.strip()` over the underlying character sequence. -/
def pyStrip (s : String) : String :=
  String.mk (((s.data.dropWhile Char.isWhitespace).reverse.dropWhile Char.isWhitespace).reverse)

/-- Row of the `messages` table (`app/models/conversation.py`): the
fields the claims touch, with timestamps as integers. -/
structure Message where
  id : String
  conversation_id : String
  sender_id : String
  content : String
  is_edited : Bool
  is_deleted : Bool
  delivered_at : Option Int
  read_at : Option Int
  created_at : Int
  updated_at : Option Int
deriving DecidableEq, Repr

/-- The message store; `id` is the primary key. -/
abbrev MessageDB := List Message

/-- Conversation membership store: conversation id ↦ participant user
ids (`conversation_users` association, `app/models/conversation.py`). -/
abbrev Convs := List (String × List String)

/-- `ChatService.user_in_conversation` (chat.py:96-111): a conversation
with this id exists and has `uid` among its users. -/
def user_in_conversation (convs : Convs) (cid uid : String) : Bool :=
  match lookupA cid convs with
  | some users => users.contains uid
  | none => false

/-- `select(Message).where(id == mid, conversation_id == cid)` +
`scalar_one_or_none()` (ids unique): first matching row. -/
def findMessage (db : MessageDB) (mid cid : String) : Option Message :=
  db.find? (fun m => m.id == mid && m.conversation_id == cid)

/-- Commit of a mutated ORM row: replace the row with that primary key. -/
def commitRow (db : MessageDB) (m : Message) : MessageDB :=
  db.map (fun x => if x.id == m.id then m else x)

/-- `ChatService.create_message` (chat.py:57-75): insert a fresh row;
`newId` stands for the DB-generated uuid, `now` for the
`created_at` server default. -/
def create_message (db : MessageDB) (cid sender content : String)
    (now : Int) (newId : String) : Message × MessageDB :=
  let m : Message :=
    { id := newId, conversation_id := cid, sender_id := sender, content := content,
      is_edited := false, is_deleted := false, delivered_at := none, read_at := none,
      created_at := now, updated_at := none }
  (m, db ++ [m])

/-- `ChatService.mark_message_read` (chat.py:174-195): look the message
up by `(id, conversation_id)` and, when found, set
`message.read_at = read_at or datetime.utcnow()` — unconditionally
(a `datetime` is always truthy, so the `or` is `Option.getD`). -/
def mark_message_read (db : MessageDB) (mid cid : String)
    (read_at : Option Int) (now : Int) : Option Message × MessageDB :=
  match findMessage db mid cid with
  | none => (none, db)
  | some m =>
    let m₁ := { m with read_at := some (read_at.getD now) }
    (some m₁, commitRow db m₁)

/-- Python truthiness of an optional string (`None` and `""` falsy). -/
def pyTruthy (o : Option String) : Bool :=
  match o with
  | none => false
  | some s => !(s == "")

/-- The row filter of `soft_delete_message`: match on id, narrowed by
conversation only when `conversation_id` is truthy. -/
def deleteFilter (mid : String) (cid : Option String) (m : Message) : Bool :=
  m.id == mid && (!pyTruthy cid || m.conversation_id == cid.getD "")

/-- `ChatService.soft_delete_message` (chat.py:197-223): find by id
(narrowed by conversation only when `conversation_id` is truthy);
absent → `not_found`; requester not the sender → `forbidden`, row
untouched; otherwise set `is_deleted`, clear `content`, bump
`updated_at` and commit. -/
def soft_delete_message (db : MessageDB) (mid requester : String)
    (cid : Option String) (now : Int) : (String × Option Message) × MessageDB :=
  match db.find? (deleteFilter mid cid) with
  | none => (("not_found", none), db)
  | some m =>
    if m.sender_id ≠ requester then (("forbidden", none), db)
    else
      let m₁ := { m with is_deleted := true, content := "", updated_at := some now }
      (("ok", some m₁), commitRow db m₁)

/-! ## WebSocket route handlers — `app/websocket/routes.py` -/

/-- `_handle_message_read` (routes.py:100-131): membership check, then
`mark_message_read` with `read_at = requested_at = utcnow()`; returns
the status and `message.read_at or requested_at`. -/
def handle_message_read (convs : Convs) (db : MessageDB)
    (cid uid mid : String) (now : Int) : (String × Option Int) × MessageDB :=
  if !user_in_conversation convs cid uid then (("forbidden", none), db)
  else
    match mark_message_read db mid cid (some now) now with
    | (none, db₁) => (("not_found", none), db₁)
    | (some m, db₁) => (("ok", some (m.read_at.getD now)), db₁)

/-- Outbound payload of `_handle_message_delete` (routes.py:157-163). -/
structure DeletePayload where
  message_id : String
  sender_id : String
  is_deleted : Bool
  content : String
  updated_at : Option Int
deriving DecidableEq, Repr

/-- `_handle_message_delete` (routes.py:134-171): membership check, then
`soft_delete_message`; on `ok` build the broadcast payload from the
committed row (an `ok` without a row would raise inside the handler's
`try` and surface as `"error"`). -/
def handle_message_delete (convs : Convs) (db : MessageDB)
    (cid uid mid : String) (now : Int) : (String × Option DeletePayload) × MessageDB :=
  if !user_in_conversation convs cid uid then (("forbidden", none), db)
  else
    let r := soft_delete_message db mid uid (some cid) now
    if r.1.1 ≠ "ok" then ((r.1.1, none), r.2)
    else
      match r.1.2 with
      | some m =>
        (("ok", some ⟨m.id, m.sender_id, m.is_deleted, m.content, m.updated_at⟩), r.2)
      | none => (("error", none), r.2)

/-- An inbound frame already decoded to a JSON object
(routes.py:237-250); `none` fields model absent or non-string values. -/
structure Frame where
  type? : Option String
  content? : Option String
  message_id? : Option String
  id? : Option String
deriving DecidableEq, Repr

/-- `message_type = payload.get("type") or "message"` (routes.py:260):
absent or falsy (empty) type defaults to `"message"`. -/
def resolvedType (f : Frame) : String :=
  match f.type? with
  | none => "message"
  | some s => if s = "" then "message" else s

/-- `payload.get("message_id") or payload.get("id")` (routes.py:276,324). -/
def frameMessageId (f : Frame) : Option String :=
  match f.message_id? with
  | some s => if s = "" then f.id? else some s
  | none => f.id?

/-- What one loop iteration sends out (routes.py, ACTIVE loop):
either an `error` event back to the acting connection, or a broadcast
(with the attempted delivery pairs recorded). -/
inductive StepOut where
  | errorToSelf (detail : String)
  | typingBroadcast (ttype : String) (attempts : List (String × WS))
  | readReceipt (message_id cid reader_id : String) (read_at : Int)
      (attempts : List (String × WS))
  | deleteBroadcast (cid deleted_by : String) (payload : DeletePayload)
      (attempts : List (String × WS))
  | messageBroadcast (msg : Message) (attempts : List (String × WS))
deriving Repr

/-- The `message_read` branch of the ACTIVE loop (routes.py:323-371):
validate the id, run the handler, send an error or broadcast the
receipt to the conversation excluding the reader. -/
def messageReadStep (convs : Convs) (reg : Registry) (db : MessageDB)
    (cid uid : String) (mid? : Option String) (now : Int) (failing : WS → Bool) :
    MessageDB × Registry × StepOut :=
  match mid? with
  | none => (db, reg, .errorToSelf "Message ID is required")
  | some mid =>
    if pyStrip mid = "" then (db, reg, .errorToSelf "Message ID is required")
    else
      let r := handle_message_read convs db cid uid (pyStrip mid) now
      if r.1.1 = "forbidden" then (r.2, reg, .errorToSelf "Not authorized to read this message")
      else if r.1.1 = "not_found" then (r.2, reg, .errorToSelf "Message not found")
      else if r.1.1 ≠ "ok" then (r.2, reg, .errorToSelf "Failed to mark message as read")
      else
        match r.1.2 with
        | none => (r.2, reg, .errorToSelf "Failed to mark message as read")
        | some t =>
          let br := broadcast_except reg cid failing (some uid)
          (r.2, br.state, .readReceipt (pyStrip mid) cid uid t br.attempts)

/-- The `message_delete` branch of the ACTIVE loop (routes.py:275-321):
validate the id, run the handler, send an error or broadcast the delete
event (to the whole conversation, sender included). -/
def messageDeleteStep (convs : Convs) (reg : Registry) (db : MessageDB)
    (cid uid : String) (mid? : Option String) (now : Int) (failing : WS → Bool) :
    MessageDB × Registry × StepOut :=
  match mid? with
  | none => (db, reg, .errorToSelf "Message ID is required")
  | some mid =>
    if pyStrip mid = "" then (db, reg, .errorToSelf "Message ID is required")
    else
      let r := handle_message_delete convs db cid uid (pyStrip mid) now
      if r.1.1 = "forbidden" then (r.2, reg, .errorToSelf "Not authorized to delete this message")
      else if r.1.1 = "not_found" then (r.2, reg, .errorToSelf "Message not found")
      else if r.1.1 ≠ "ok" then (r.2, reg, .errorToSelf "Failed to delete message")
      else
        match r.1.2 with
        | none => (r.2, reg, .errorToSelf "Failed to delete message")
        | some payload =>
          let br := broadcast reg cid failing
          (r.2, br.state, .deleteBroadcast cid uid payload br.attempts)

/-- One iteration of the ACTIVE event loop (routes.py:236-422) on a
decoded frame (`none` models malformed JSON or a non-object payload).
The generic per-user limit guards every dict frame; the dispatch then
mirrors the source: typing events, delete, read, and otherwise the
fall-through persist path, on which the stricter per-(conversation,user)
send limit is consulted only when the resolved type is exactly
`"message"`. -/
def wsStep (convs : Convs) (reg : Registry) (db : MessageDB) (rl : RLState)
    (cid uid : String) (frame : Option Frame) (now : Int) (newId : String)
    (failing : WS → Bool) : MessageDB × RLState × Registry × StepOut :=
  match frame with
  | none => (db, rl, reg, .errorToSelf "Invalid message format")
  | some f =>
    let generic := allow rl ("ws:" ++ uid) WS_EVENT_LIMIT WS_EVENT_WINDOW_SECONDS now
    if !generic.1 then
      (db, generic.2, reg, .errorToSelf "Rate limit exceeded. Please slow down.")
    else
      let rl₁ := generic.2
      let mtype := resolvedType f
      if mtype = "typing_start" ∨ mtype = "typing_stop" then
        let br := broadcast_except reg cid failing (some uid)
        (db, rl₁, br.state, .typingBroadcast mtype br.attempts)
      else if mtype = "message_delete" then
        let r := messageDeleteStep convs reg db cid uid (frameMessageId f) now failing
        (r.1, rl₁, r.2.1, r.2.2)
      else if mtype = "message_read" then
        let r := messageReadStep convs reg db cid uid (frameMessageId f) now failing
        (r.1, rl₁, r.2.1, r.2.2)
      else
        let send :=
          if mtype = "message" then
            allow rl₁ ("msg:" ++ cid ++ ":" ++ uid) MESSAGE_EVENT_LIMIT
              MESSAGE_EVENT_WINDOW_SECONDS now
          else (true, rl₁)
        if !send.1 then
          (db, send.2, reg, .errorToSelf "Too many messages. Please slow down.")
        else
          match f.content? with
          | none => (db, send.2, reg, .errorToSelf "Message content is required")
          | some c =>
            if pyStrip c = "" then (db, send.2, reg, .errorToSelf "Message content is required")
            else
              let r := create_message db cid uid (pyStrip c) now newId
              let br := broadcast reg cid failing
              (r.2, send.2, br.state, .messageBroadcast r.1 br.attempts)

/-! ## Presence transitions — routes.py:212-232 and 423-470 -/

inductive PresenceStatus where
  | online
  | offline
deriving DecidableEq, Repr

/-- A `presence` broadcast: acting user, status, `last_seen` (offline
only), and the excluded user of the `broadcast_except` call. -/
structure PresenceEmit where
  user_id : String
  status : PresenceStatus
  last_seen : Option Int
  exclude : Option String
deriving DecidableEq, Repr

/-- A session lifecycle event: the handler registering its connection
after authorization, or deregistering it on disconnect (`now` is the
`last_seen` clock reading of the offline path). -/
inductive SessionEvent where
  | conn (cid uid : String) (ws : WS)
  | disc (cid uid : String) (ws : WS) (now : Int)
deriving Repr

def SessionEvent.uid : SessionEvent → String
  | .conn _ u _ => u
  | .disc _ u _ _ => u

/-- The registry mutation + presence decision of one session lifecycle
event. Connect (routes.py:212-232): read the user's total connection
count, register, and broadcast `online` iff the count was 0. Disconnect
(routes.py:423-446): deregister, and broadcast `offline` with
`last_seen` iff the remaining count is 0. Both presence broadcasts
exclude the acting user. -/
def sessionStep (st : Registry) : SessionEvent → Registry × Option PresenceEmit
  | .conn cid uid ws =>
    let prev := get_user_connection_count st uid
    let st₁ := connect st cid uid ws
    (st₁, if prev = 0 then some ⟨uid, .online, none, some uid⟩ else none)
  | .disc cid uid ws now =>
    let st₁ := disconnect st cid uid ws
    (st₁, if get_user_connection_count st₁ uid = 0
          then some ⟨uid, .offline, some now, some uid⟩ else none)

/-- The connection is filed under `(cid, uid)` in the registry. -/
def wsRegistered (st : Registry) (cid uid : String) (ws : WS) : Bool :=
  ((lookupA uid ((lookupA cid st).getD [])).getD []).contains ws

/-- Registry states as Python produces them: unique dict keys at both
levels and duplicate-free connection sets. -/
def StateNoDup (st : Registry) : Prop :=
  (st.map Prod.fst).Nodup ∧
    ∀ p ∈ st, (p.2.map Prod.fst).Nodup ∧ ∀ q ∈ p.2, q.2.Nodup

instance : DecidablePred StateNoDup := fun _ =>
  inferInstanceAs (Decidable (_ ∧ _))

/-- Every conversation entry holds a non-empty user map and every user
entry holds a non-empty connection set. -/
def RegistryWF (st : Registry) : Prop :=
  ∀ p ∈ st, p.2 ≠ [] ∧ ∀ q ∈ p.2, q.2 ≠ []

/-- A registry operation, as issued by the session handlers. -/
inductive RegOp where
  | conn (cid uid : String) (ws : WS)
  | disc (cid uid : String) (ws : WS)
  | bcast (cid : String) (failing : WS → Bool)
  | bcastExcept (cid : String) (failing : WS → Bool) (exclude : Option String)

def applyOp (st : Registry) : RegOp → Registry
  | .conn cid uid ws => connect st cid uid ws
  | .disc cid uid ws => disconnect st cid uid ws
  | .bcast cid failing => (broadcast st cid failing).state
  | .bcastExcept cid failing ex => (broadcast_except st cid failing ex).state

/-- Registry state reached from the empty registry by a sequence of
connect / disconnect / broadcast / broadcast_except operations. -/
def runOps (ops : List RegOp) : Registry :=
  ops.foldl applyOp []

/-- Validity of a session lifecycle event against the registry: the
handler deregisters only the very connection it registered, so a
disconnect event always names a currently registered connection. -/
def eventOK (st : Registry) : SessionEvent → Prop
  | .conn _ _ _ => True
  | .disc cid uid ws _ => wsRegistered st cid uid ws = true

instance (st : Registry) (e : SessionEvent) : Decidable (eventOK st e) := by
  cases e with
  | conn cid uid ws => exact inferInstanceAs (Decidable True)
  | disc cid uid ws now => exact inferInstanceAs (Decidable (_ = true))

/-- A message row whose `read_at` is already set (by an earlier reader). -/
def readMsg : Message :=
  { id := "m1", conversation_id := "c", sender_id := "alice", content := "hi",
    is_edited := false, is_deleted := false, delivered_at := none, read_at := some 5,
    created_at := 0, updated_at := none }

/-- An undeleted message row authored by `alice`. -/
def delMsg : Message :=
  { id := "m1", conversation_id := "c", sender_id := "alice", content := "hi",
    is_edited := false, is_deleted := false, delivered_at := none, read_at := none,
    created_at := 0, updated_at := none }

/-- A frame carrying a type the dispatch does not recognise. -/
def bogusFrame : Frame :=
  { type? := some "bogus", content? := some "hi", message_id? := none, id? := none }

/-! ## Association-list lemmas -/

theorem lookupA_insertA_self {α : Type} (k : String) (v : α) :
    ∀ l : List (String × α), lookupA k (insertA k v l) = some v
  | [] => by simp [insertA, lookupA]
  | (k₀, v₀) :: rest => by
    by_cases h : k₀ = k
    · simp [insertA, h, lookupA]
    · simp [insertA, h, lookupA, lookupA_insertA_self k v rest]

theorem insertA_self_of_lookupA {α : Type} (k : String) (v : α) :
    ∀ l : List (String × α), lookupA k l = some v → insertA k v l = l
  | [], h => by simp [lookupA] at h
  | (k₀, v₀) :: rest, h => by
    by_cases hk : k₀ = k
    · rw [lookupA, if_pos hk] at h
      obtain rfl := Option.some_inj.mp h
      simp [insertA, hk]
    · rw [lookupA, if_neg hk] at h
      simp [insertA, hk, insertA_self_of_lookupA k v rest h]

theorem mem_insertA {α : Type} (k : String) (v : α) (p : String × α) :
    ∀ l : List (String × α), p ∈ insertA k v l → p = (k, v) ∨ p ∈ l
  | [], h => by simpa [insertA] using h
  | (k₀, v₀) :: rest, h => by
    by_cases hk : k₀ = k
    · simp only [insertA, hk, if_pos, List.mem_cons] at h
      rcases h with h | h
      · exact Or.inl h
      · exact Or.inr (List.mem_cons_of_mem _ h)
    · simp only [insertA, hk, if_neg, if_false, List.mem_cons] at h
      rcases h with h | h
      · exact Or.inr (by simp [h])
      · rcases mem_insertA k v p rest h with h₁ | h₁
        · exact Or.inl h₁
        · exact Or.inr (List.mem_cons_of_mem _ h₁)

theorem insertA_ne_nil {α : Type} (k : String) (v : α) :
    ∀ l : List (String × α), insertA k v l ≠ []
  | [] => by simp [insertA]
  | (k₀, v₀) :: rest => by
    by_cases hk : k₀ = k <;> simp [insertA, hk]

theorem mem_eraseA {α : Type} (k : String) (p : String × α) :
    ∀ l : List (String × α), p ∈ eraseA k l → p ∈ l
  | (k₀, v₀) :: rest, h => by
    by_cases hk : k₀ = k
    · simp only [eraseA, hk, if_pos] at h
      exact List.mem_cons_of_mem _ h
    · simp only [eraseA, hk, if_neg, if_false, List.mem_cons] at h
      rcases h with h | h
      · simp [h]
      · exact List.mem_cons_of_mem _ (mem_eraseA k p rest h)

theorem lookupA_eq_none_of_not_mem_keys {α : Type} (k : String) :
    ∀ l : List (String × α), k ∉ l.map Prod.fst → lookupA k l = none
  | [], _ => rfl
  | (k₀, v₀) :: rest, h => by
    simp only [List.map_cons, List.mem_cons] at h
    push_neg at h
    rw [lookupA, if_neg (fun hh => h.1 hh.symm)]
    exact lookupA_eq_none_of_not_mem_keys k rest h.2

theorem lookupA_eraseA_self {α : Type} (k : String) :
    ∀ l : List (String × α), (l.map Prod.fst).Nodup → lookupA k (eraseA k l) = none
  | [], _ => rfl
  | (k₀, v₀) :: rest, h => by
    simp only [List.map_cons, List.nodup_cons] at h
    by_cases hk : k₀ = k
    · simp only [eraseA, hk, if_pos]
      exact lookupA_eq_none_of_not_mem_keys k rest (hk ▸ h.1)
    · simp [eraseA, hk, lookupA, lookupA_eraseA_self k rest h.2]

theorem lookupA_mem {α : Type} (k : String) (v : α) :
    ∀ l : List (String × α), lookupA k l = some v → (k, v) ∈ l
  | [], h => by simp [lookupA] at h
  | (k₀, v₀) :: rest, h => by
    by_cases hk : k₀ = k
    · rw [lookupA, if_pos hk] at h
      simp [hk.symm, Option.some_inj.mp h]
    · rw [lookupA, if_neg hk] at h
      exact List.mem_cons_of_mem _ (lookupA_mem k v rest h)

/-! ## List helper lemmas -/

theorem dropWhile_eq_self_of_not {α : Type} (p : α → Bool) :
    ∀ l : List α, (∀ a ∈ l, p a = false) → l.dropWhile p = l
  | [], _ => rfl
  | a :: l, h => by
    rw [List.dropWhile_cons, if_neg (by simp [h a (by simp)])]

theorem dropWhile_lt_eq_filter (c : Int) :
    ∀ l : List Int, l.Sorted (· ≤ ·) →
      l.dropWhile (fun t => decide (t < c)) = l.filter (fun t => decide (c ≤ t))
  | [], _ => rfl
  | a :: l, h => by
    rcases List.sorted_cons.mp h with ⟨ha, hl⟩
    by_cases hac : a < c
    · rw [List.dropWhile_cons, if_pos (by simpa using hac), List.filter_cons,
        if_neg (by simpa using (by omega : ¬ c ≤ a))]
      exact dropWhile_lt_eq_filter c l hl
    · rw [List.dropWhile_cons, if_neg (by simpa using hac), List.filter_cons,
        if_pos (by simpa using (by omega : c ≤ a))]
      rw [List.filter_eq_self.mpr]
      intro b hb
      have := ha b hb
      simpa using by omega

/-! ## Broadcast pass lemmas -/

theorem sendPass_go (f : WS → Bool) :
    ∀ (pairs a b : List (String × WS)),
      pairs.foldl (fun acc p => (acc.1 ++ [p], if f p.2 then acc.2 ++ [p] else acc.2)) (a, b)
        = (a ++ pairs, b ++ pairs.filter (fun p => f p.2))
  | [], a, b => by simp
  | p :: rest, a, b => by
    simp only [List.foldl_cons]
    rw [sendPass_go f rest]
    by_cases h : f p.2 <;> simp [List.filter_cons, h]

theorem sendPass_eq (f : WS → Bool) (pairs : List (String × WS)) :
    sendPass f pairs = (pairs, pairs.filter (fun p => f p.2)) := by
  unfold sendPass
  rw [sendPass_go]
  simp

theorem broadcast_except_eq_of_never (st : Registry) (cid : String) (failing : WS → Bool)
    (ex : Option String) (hex : ∀ u, excludedUser ex u = false) :
    broadcast_except st cid failing ex = broadcast st cid failing := by
  have hfil : ∀ conv : UserConns, conv.filter (fun p => !excludedUser ex p.1) = conv := by
    intro conv
    rw [List.filter_eq_self]
    intro a _
    simp [hex a.1]
  unfold broadcast_except broadcast
  simp only [hfil]

/-! ## Disconnect lemmas -/

theorem disconnect_none (st : Registry) (cid uid : String) (ws : WS)
    (h₁ : lookupA cid st = none) : disconnect st cid uid ws = st := by
  unfold disconnect
  rw [h₁]

theorem disconnect_conv_nil (st : Registry) (cid uid : String) (ws : WS)
    (h₁ : lookupA cid st = some []) : disconnect st cid uid ws = st := by
  unfold disconnect
  rw [h₁]
  rfl

theorem disconnect_uid_none (st : Registry) (cid uid : String) (ws : WS) (conv : UserConns)
    (h₁ : lookupA cid st = some conv) (hc : conv ≠ []) (h₂ : lookupA uid conv = none) :
    disconnect st cid uid ws = st := by
  unfold disconnect
  rw [h₁]
  dsimp only
  rw [if_neg (by simpa [List.isEmpty_iff] using hc), h₂]

theorem disconnect_conns_nil (st : Registry) (cid uid : String) (ws : WS) (conv : UserConns)
    (h₁ : lookupA cid st = some conv) (hc : conv ≠ []) (h₂ : lookupA uid conv = some []) :
    disconnect st cid uid ws = st := by
  unfold disconnect
  rw [h₁]
  dsimp only
  rw [if_neg (by simpa [List.isEmpty_iff] using hc), h₂]
  rfl

theorem disconnect_found (st : Registry) (cid uid : String) (ws : WS) (conv : UserConns)
    (conns : List WS) (h₁ : lookupA cid st = some conv) (h₂ : lookupA uid conv = some conns)
    (hc : conv ≠ []) (hcc : conns ≠ []) :
    disconnect st cid uid ws =
      (if (conns.erase ws).isEmpty then
        (if (eraseA uid conv).isEmpty then eraseA cid st
         else insertA cid (eraseA uid conv) st)
       else
        (if (insertA uid (conns.erase ws) conv).isEmpty then eraseA cid st
         else insertA cid (insertA uid (conns.erase ws) conv) st)) := by
  unfold disconnect
  rw [h₁]
  dsimp only
  rw [if_neg (by simpa [List.isEmpty_iff] using hc), h₂]
  dsimp only
  rw [if_neg (by simpa [List.isEmpty_iff] using hcc)]
  by_cases he : (conns.erase ws).isEmpty <;> simp [he]

theorem conv_ne_nil_of_lookupA {α : Type} (k : String) (v : α) (l : List (String × α))
    (h : lookupA k l = some v) : l ≠ [] := by
  intro hnil
  rw [hnil] at h
  simp [lookupA] at h

theorem disconnect_of_unregistered (st : Registry) (cid uid : String) (ws : WS)
    (hreg : wsRegistered st cid uid ws = false) : disconnect st cid uid ws = st := by
  unfold wsRegistered at hreg
  cases h₁ : lookupA cid st with
  | none => exact disconnect_none st cid uid ws h₁
  | some conv =>
    rw [h₁] at hreg
    simp only [Option.getD_some] at hreg
    by_cases hcnil : conv = []
    · exact disconnect_conv_nil st cid uid ws (hcnil ▸ h₁)
    cases h₂ : lookupA uid conv with
    | none => exact disconnect_uid_none st cid uid ws conv h₁ hcnil h₂
    | some conns =>
      rw [h₂] at hreg
      simp only [Option.getD_some] at hreg
      by_cases hccnil : conns = []
      · exact disconnect_conns_nil st cid uid ws conv h₁ hcnil (hccnil ▸ h₂)
      have hmem : ws ∉ conns := by
        intro hmem
        have hct : conns.contains ws = true := List.elem_iff.mpr hmem
        rw [hct] at hreg
        exact Bool.true_eq_false.mp hreg
      have herase : conns.erase ws = conns := List.erase_of_not_mem hmem
      rw [disconnect_found st cid uid ws conv conns h₁ h₂ hcnil hccnil, herase,
        if_neg (by simpa [List.isEmpty_iff] using hccnil),
        insertA_self_of_lookupA uid conns conv h₂,
        if_neg (by simpa [List.isEmpty_iff] using hcnil),
        insertA_self_of_lookupA cid conv st h₁]

theorem wsRegistered_disconnect (st : Registry) (cid uid : String) (ws : WS)
    (hnd : StateNoDup st) :
    wsRegistered (disconnect st cid uid ws) cid uid ws = false := by
  by_cases hreg : wsRegistered st cid uid ws = true
  · unfold wsRegistered at hreg
    cases h₁ : lookupA cid st with
    | none =>
      rw [h₁] at hreg
      simp [lookupA] at hreg
    | some conv =>
      rw [h₁] at hreg
      simp only [Option.getD_some] at hreg
      cases h₂ : lookupA uid conv with
      | none =>
        rw [h₂] at hreg
        simp [lookupA] at hreg
      | some conns =>
        rw [h₂] at hreg
        simp only [Option.getD_some] at hreg
        have hws : ws ∈ conns := List.elem_iff.mp hreg
        have hcnil : conv ≠ [] := conv_ne_nil_of_lookupA uid conns conv h₂
        have hccnil : conns ≠ [] := List.ne_nil_of_mem hws
        have hconvmem : (cid, conv) ∈ st := lookupA_mem cid conv st h₁
        have hconnsmem : (uid, conns) ∈ conv := lookupA_mem uid conns conv h₂
        have hconvnd : (conv.map Prod.fst).Nodup := (hnd.2 (cid, conv) hconvmem).1
        have hconnsnd : conns.Nodup :=
          (hnd.2 (cid, conv) hconvmem).2 (uid, conns) hconnsmem
        rw [disconnect_found st cid uid ws conv conns h₁ h₂ hcnil hccnil]
        by_cases he : (conns.erase ws).isEmpty
        · rw [if_pos he]
          by_cases hce : (eraseA uid conv).isEmpty
          · rw [if_pos hce]
            unfold wsRegistered
            rw [lookupA_eraseA_self cid st hnd.1]
            simp [lookupA]
          · rw [if_neg hce]
            unfold wsRegistered
            rw [lookupA_insertA_self cid (eraseA uid conv) st]
            simp only [Option.getD_some]
            rw [lookupA_eraseA_self uid conv hconvnd]
            simp
        · rw [if_neg he,
            if_neg (by simpa [List.isEmpty_iff] using insertA_ne_nil uid (conns.erase ws) conv)]
          unfold wsRegistered
          rw [lookupA_insertA_self cid (insertA uid (conns.erase ws) conv) st]
          simp only [Option.getD_some]
          rw [lookupA_insertA_self uid (conns.erase ws) conv]
          simp only [Option.getD_some]
          rw [Bool.eq_false_iff]
          intro helem
          have hin := (hconnsnd.mem_erase_iff).mp (List.elem_iff.mp helem)
          exact hin.1 rfl
  · have hregf : wsRegistered st cid uid ws = false := by
      revert hreg
      cases wsRegistered st cid uid ws <;> simp
    rw [disconnect_of_unregistered st cid uid ws hregf]
    exact hregf

/-- C7: `disconnect` is total and idempotent — on an unregistered
connection (in particular after a prior successful removal on a
well-formed registry) it returns the state exactly unchanged, and a
second `disconnect` of the same triple is a no-op. -/
theorem disconnect_idempotent (st : Registry) (cid uid : String) (ws : WS) :
    (wsRegistered st cid uid ws = false → disconnect st cid uid ws = st)
    ∧ (StateNoDup st →
        disconnect (disconnect st cid uid ws) cid uid ws = disconnect st cid uid ws) :=
  ⟨disconnect_of_unregistered st cid uid ws,
   fun hnd => disconnect_of_unregistered _ cid uid ws (wsRegistered_disconnect st cid uid ws hnd)⟩

/-- C7 witness: in the registry holding connection 1 of user `u` in
conversation `c`, removing the unregistered connection 2 changes
nothing, and removing connection 1 twice equals removing it once. -/
theorem disconnect_idempotent_witness :
    disconnect [("c", [("u", [1])])] "c" "u" 2 = [("c", [("u", [1])])]
    ∧ disconnect (disconnect [("c", [("u", [1])])] "c" "u" 1) "c" "u" 1
        = disconnect [("c", [("u", [1])])] "c" "u" 1 :=
  ⟨(disconnect_idempotent [("c", [("u", [1])])] "c" "u" 2).1 (by decide),
   (disconnect_idempotent [("c", [("u", [1])])] "c" "u" 1).2 (by decide)⟩

/-- C10: the registered connections attempted by `broadcast_except` with
no excluded user (or with the falsy empty-string user id, which Python
truthiness ignores) are exactly those of `broadcast` — the whole results
coincide. -/
theorem broadcast_except_untruthy_eq_broadcast (st : Registry) (cid : String)
    (failing : WS → Bool) :
    broadcast_except st cid failing none = broadcast st cid failing
    ∧ broadcast_except st cid failing (some "") = broadcast st cid failing :=
  ⟨broadcast_except_eq_of_never st cid failing none (fun u => by simp [excludedUser]),
   broadcast_except_eq_of_never st cid failing (some "") (fun u => by simp [excludedUser])⟩

/-! ## Rate limiter lemmas -/

/-- C4 counterexample: a call with `limit = 0` on a fresh key leaves the
key mapped to an empty queue — the `defaultdict` access materialises the
entry, the rejection path keeps it, and the garbage-collection line
sits after the append and never runs. -/
theorem allow_limit_zero_keeps_empty_queue :
    (allow [] "k" 0 60 0).2 = [("k", [])] ∧ ¬ noEmptyQueues (allow [] "k" 0 60 0).2 := by
  constructor
  · rfl
  · decide

/-- C4 (amended): for every positive limit, `allow` leaves no key mapped
to an empty queue — a queue emptied by eviction is immediately
repopulated with the admitted instant rather than removed, and a
rejecting call retains at least `limit ≥ 1` instants. -/
theorem allow_preserves_noEmptyQueues (st : RLState) (key : String) (limit : Nat)
    (window now : Int) (hL : 1 ≤ limit) (hst : noEmptyQueues st) :
    noEmptyQueues (allow st key limit window now).2 := by
  unfold allow
  dsimp only
  set pruned := ((lookupA key st).getD []).dropWhile (fun t => decide (t < now - window))
    with hpr
  by_cases h : limit ≤ pruned.length
  · rw [if_pos h]
    intro p hmem
    rcases mem_insertA key pruned p st hmem with h₁ | h₁
    · rw [h₁]
      show pruned ≠ []
      exact List.length_pos.mp (by omega)
    · exact hst p h₁
  · rw [if_neg h, if_neg (by simp [List.isEmpty_iff])]
    intro p hmem
    rcases mem_insertA key (pruned ++ [now]) p st hmem with h₁ | h₁
    · rw [h₁]
      simp
    · exact hst p h₁

/-- C4 witness: a concrete positive-limit call keeping the invariant. -/
theorem allow_preserves_noEmptyQueues_witness :
    noEmptyQueues (allow [("a", [3])] "k" 1 60 10).2 :=
  allow_preserves_noEmptyQueues [("a", [3])] "k" 1 60 10 (by decide) (by decide)

theorem runCalls_within (key : String) (L : Nat) (W : Int) :
    ∀ (ts : List Int) (st : RLState) (q : List Int),
      queueOf st key = q →
      (∀ t ∈ ts, ∀ s ∈ q ++ ts, t - W ≤ s) →
      q.length + ts.length ≤ L →
      (runCalls key L W st ts).1 = List.replicate ts.length true
      ∧ queueOf (runCalls key L W st ts).2 key = q ++ ts
  | [], st, q, hq, _, _ => by simp [runCalls, hq]
  | t :: rest, st, q, hq, hwin, hlen => by
    have hkeep : ∀ s ∈ q, (fun s => decide (s < t - W)) s = false := by
      intro s hs
      have := hwin t (by simp) s (List.mem_append_left _ hs)
      simp only [decide_eq_false_iff_not]
      omega
    have hallow : allow st key L W t = (true, insertA key (q ++ [t]) st) := by
      unfold allow
      rw [show (lookupA key st).getD [] = q from hq]
      dsimp only
      rw [dropWhile_eq_self_of_not _ q hkeep,
        if_neg (by simp only [List.length_cons] at hlen; omega),
        if_neg (by simp [List.isEmpty_iff])]
    have hq₁ : queueOf (insertA key (q ++ [t]) st) key = q ++ [t] := by
      unfold queueOf
      rw [lookupA_insertA_self]
      rfl
    have hwin₁ : ∀ u ∈ rest, ∀ s ∈ (q ++ [t]) ++ rest, u - W ≤ s := by
      intro u hu s hs
      refine hwin u (List.mem_cons_of_mem _ hu) s ?_
      rcases List.mem_append.mp hs with hs | hs
      · rcases List.mem_append.mp hs with hs | hs
        · exact List.mem_append_left _ hs
        · exact List.mem_append_right _ (by simpa using Or.inl (by simpa using hs))
      · exact List.mem_append_right _ (List.mem_cons_of_mem _ hs)
    have hlen₁ : (q ++ [t]).length + rest.length ≤ L := by
      simp only [List.length_append, List.length_singleton]
      simp only [List.length_cons] at hlen
      omega
    have ih := runCalls_within key L W rest (insertA key (q ++ [t]) st) (q ++ [t]) hq₁ hwin₁ hlen₁
    unfold runCalls
    rw [hallow]
    dsimp only
    constructor
    · rw [ih.1]
      simp [List.replicate_succ]
    · rw [ih.2]
      simp

/-- C3: the sliding-window contract of `allow`. Per call (on the
monotonic-clock invariant that the recorded queue is nondecreasing):
exactly the instants older than `now - W` are evicted, a call finding
`L` or more retained instants is rejected without recording, and any
other call records its instant and succeeds. Consequently, from a fresh
key, `L` calls whose instants pairwise lie within a window of length `W`
all succeed, a further call still within `W` of all of them fails, and a
call more than `W` after the first instant succeeds again. -/
theorem allow_sliding_window_spec (key : String) (L : Nat) (W : Int) (hL : 1 ≤ L) :
    (∀ (st : RLState) (now : Int), (queueOf st key).Sorted (· ≤ ·) →
       allow st key L W now =
         (let retained := (queueOf st key).filter (fun t => decide (now - W ≤ t))
          if L ≤ retained.length then (false, insertA key retained st)
          else (true, insertA key (retained ++ [now]) st)))
    ∧ (∀ (st : RLState) (t₁ : Int) (rest : List Int) (t tr : Int),
        queueOf st key = [] →
        (t₁ :: rest).length = L →
        (∀ a ∈ t₁ :: rest, ∀ b ∈ t₁ :: rest, a - b ≤ W) →
        (runCalls key L W st (t₁ :: rest)).1 = List.replicate L true
        ∧ ((∀ s ∈ t₁ :: rest, t - s ≤ W) →
            (allow (runCalls key L W st (t₁ :: rest)).2 key L W t).1 = false)
        ∧ (W < tr - t₁ →
            (allow (runCalls key L W st (t₁ :: rest)).2 key L W tr).1 = true)) := by
  constructor
  · intro st now hsort
    unfold allow
    dsimp only
    rw [show ((lookupA key st).getD []).dropWhile (fun t => decide (t < now - W))
          = (queueOf st key).dropWhile (fun t => decide (t < now - W)) from rfl,
      dropWhile_lt_eq_filter (now - W) _ hsort]
    by_cases h : L ≤ ((queueOf st key).filter (fun t => decide (now - W ≤ t))).length
    · rw [if_pos h, if_pos h]
    · rw [if_neg h, if_neg (by simp [List.isEmpty_iff]), if_neg h]
  · intro st t₁ rest t tr hfresh hlenL hpair
    have hwin : ∀ u ∈ t₁ :: rest, ∀ s ∈ ([] : List Int) ++ t₁ :: rest, u - W ≤ s := by
      intro u hu s hs
      have := hpair u hu s (by simpa using hs)
      omega
    have hrun := runCalls_within key L W (t₁ :: rest) st [] hfresh hwin
      (by rw [hlenL]; simp)
    have hqfinal : queueOf (runCalls key L W st (t₁ :: rest)).2 key = t₁ :: rest := by
      rw [hrun.2]
      simp
    refine ⟨by rw [hrun.1, hlenL], ?_, ?_⟩
    · intro hall
      have hkeep : ∀ s ∈ t₁ :: rest, (fun s => decide (s < t - W)) s = false := by
        intro s hs
        have := hall s hs
        simp only [decide_eq_false_iff_not]
        omega
      unfold allow
      rw [show (lookupA key (runCalls key L W st (t₁ :: rest)).2).getD []
            = queueOf (runCalls key L W st (t₁ :: rest)).2 key from rfl, hqfinal]
      dsimp only
      rw [dropWhile_eq_self_of_not _ _ hkeep, if_pos (by rw [hlenL])]
    · intro hlate
      have hdropA : (t₁ :: rest).dropWhile (fun s => decide (s < tr - W))
          = rest.dropWhile (fun s => decide (s < tr - W)) := by
        rw [List.dropWhile_cons, if_pos (by simp only [decide_eq_true_eq]; omega)]
      have hshort : (rest.dropWhile (fun s => decide (s < tr - W))).length < L := by
        have h₁ := (List.dropWhile_sublist (fun s => decide (s < tr - W)) (l := rest)).length_le
        have h₂ : rest.length + 1 = L := by simpa using hlenL
        omega
      unfold allow
      rw [show (lookupA key (runCalls key L W st (t₁ :: rest)).2).getD []
            = queueOf (runCalls key L W st (t₁ :: rest)).2 key from rfl, hqfinal]
      dsimp only
      rw [hdropA, if_neg (by omega), if_neg (by simp [List.isEmpty_iff])]

/-- C3 witness: limit 2, window 10 — calls at 0 and 1 succeed, a third
call at 5 is rejected, and a call at 12 (more than the window after the
first instant) succeeds. -/
theorem allow_sliding_window_spec_witness :
    (runCalls "k" 2 10 [] [0, 1]).1 = List.replicate 2 true
    ∧ (allow (runCalls "k" 2 10 [] [0, 1]).2 "k" 2 10 5).1 = false
    ∧ (allow (runCalls "k" 2 10 [] [0, 1]).2 "k" 2 10 12).1 = true := by
  have h := (allow_sliding_window_spec "k" 2 10 (by decide)).2 [] 0 [1] 5 12
    (by decide) (by decide) (by decide)
  exact ⟨h.1, h.2.1 (by decide), h.2.2 (by decide)⟩

/-! ## Registry invariant (no empty leaf sets) -/

theorem innerWF_of_lookup (st : Registry) (cid : String) (h : RegistryWF st) :
    ∀ q ∈ (lookupA cid st).getD ([] : UserConns), q.2 ≠ [] := by
  cases hl : lookupA cid st with
  | none => simp
  | some conv =>
    exact fun q hq => (h (cid, conv) (lookupA_mem cid conv st hl)).2 q (by simpa using hq)

theorem RegistryWF_connect (st : Registry) (cid uid : String) (ws : WS)
    (h : RegistryWF st) : RegistryWF (connect st cid uid ws) := by
  unfold connect
  dsimp only
  intro p hp
  rcases mem_insertA cid _ p st hp with h₁ | h₁
  · rw [h₁]
    refine ⟨insertA_ne_nil _ _ _, ?_⟩
    intro q hq
    rcases mem_insertA uid _ q _ hq with h₂ | h₂
    · rw [h₂]
      by_cases hws : ws ∈ (lookupA uid ((lookupA cid st).getD [])).getD []
      · simp only [hws, if_true]
        exact List.ne_nil_of_mem hws
      · simp only [hws, if_false]
        simp
    · exact innerWF_of_lookup st cid h q h₂
  · exact h p h₁

theorem RegistryWF_disconnect (st : Registry) (cid uid : String) (ws : WS)
    (h : RegistryWF st) : RegistryWF (disconnect st cid uid ws) := by
  cases h₁ : lookupA cid st with
  | none => rw [disconnect_none st cid uid ws h₁]; exact h
  | some conv =>
    by_cases hcnil : conv = []
    · rw [disconnect_conv_nil st cid uid ws (hcnil ▸ h₁)]; exact h
    cases h₂ : lookupA uid conv with
    | none => rw [disconnect_uid_none st cid uid ws conv h₁ hcnil h₂]; exact h
    | some conns =>
      by_cases hccnil : conns = []
      · rw [disconnect_conns_nil st cid uid ws conv h₁ hcnil (hccnil ▸ h₂)]; exact h
      have hinner : ∀ q ∈ conv, q.2 ≠ [] :=
        (h (cid, conv) (lookupA_mem cid conv st h₁)).2
      rw [disconnect_found st cid uid ws conv conns h₁ h₂ hcnil hccnil]
      by_cases he : (conns.erase ws).isEmpty
      · rw [if_pos he]
        by_cases hce : (eraseA uid conv).isEmpty
        · rw [if_pos hce]
          intro p hp
          exact h p (mem_eraseA cid p st hp)
        · rw [if_neg hce]
          intro p hp
          rcases mem_insertA cid (eraseA uid conv) p st hp with hne | hmem
          · rw [hne]
            refine ⟨by simpa [List.isEmpty_iff] using hce, ?_⟩
            intro q hq
            exact hinner q (mem_eraseA uid q conv hq)
          · exact h p hmem
      · rw [if_neg he,
          if_neg (by simpa [List.isEmpty_iff] using insertA_ne_nil uid (conns.erase ws) conv)]
        intro p hp
        rcases mem_insertA cid (insertA uid (conns.erase ws) conv) p st hp with hne | hmem
        · rw [hne]
          refine ⟨insertA_ne_nil _ _ _, ?_⟩
          intro q hq
          rcases mem_insertA uid (conns.erase ws) q conv hq with h₂q | h₂q
          · rw [h₂q]
            show conns.erase ws ≠ []
            simpa [List.isEmpty_iff] using he
          · exact hinner q h₂q
        · exact h p hmem

theorem RegistryWF_foldl_disconnect (cid : String) :
    ∀ (ps : List (String × WS)) (st : Registry), RegistryWF st →
      RegistryWF (ps.foldl (fun s p => disconnect s cid p.1 p.2) st)
  | [], _, h => h
  | p :: rest, st, h =>
    RegistryWF_foldl_disconnect cid rest _ (RegistryWF_disconnect st cid p.1 p.2 h)

theorem RegistryWF_broadcast (st : Registry) (cid : String) (failing : WS → Bool)
    (h : RegistryWF st) : RegistryWF (broadcast st cid failing).state := by
  unfold broadcast
  cases h₁ : lookupA cid st with
  | none => exact h
  | some conv =>
    dsimp only
    by_cases hc : conv.isEmpty
    · rw [if_pos hc]
      exact h
    · rw [if_neg hc]
      exact RegistryWF_foldl_disconnect cid _ st h

theorem RegistryWF_broadcast_except (st : Registry) (cid : String) (failing : WS → Bool)
    (ex : Option String) (h : RegistryWF st) :
    RegistryWF (broadcast_except st cid failing ex).state := by
  unfold broadcast_except
  cases h₁ : lookupA cid st with
  | none => exact h
  | some conv =>
    dsimp only
    by_cases hc : conv.isEmpty
    · rw [if_pos hc]
      exact h
    · rw [if_neg hc]
      exact RegistryWF_foldl_disconnect cid _ st h

theorem RegistryWF_applyOp (st : Registry) (op : RegOp) (h : RegistryWF st) :
    RegistryWF (applyOp st op) := by
  cases op with
  | conn cid uid ws => exact RegistryWF_connect st cid uid ws h
  | disc cid uid ws => exact RegistryWF_disconnect st cid uid ws h
  | bcast cid failing => exact RegistryWF_broadcast st cid failing h
  | bcastExcept cid failing ex => exact RegistryWF_broadcast_except st cid failing ex h

/-- C6: every registry state reachable from the empty registry via
connect, disconnect, broadcast and broadcast_except has no empty leaf —
every conversation key maps to a non-empty user map and every user key
to a non-empty connection set. -/
theorem registry_reachable_no_empty_leaves (ops : List RegOp) : RegistryWF (runOps ops) := by
  have hgen : ∀ (l : List RegOp) (st : Registry), RegistryWF st →
      RegistryWF (l.foldl applyOp st) := by
    intro l
    induction l with
    | nil => exact fun _ h => h
    | cons op rest ih =>
      intro st h
      rw [List.foldl_cons]
      exact ih _ (RegistryWF_applyOp st op h)
  exact hgen ops [] (by intro p hp; simp at hp)

/-- C8: a failing connection does not shrink the delivery pass — both
broadcast primitives attempt delivery to the full snapshot of the
conversation's (non-excluded) registered connections, independently of
which sends fail, and the registry mutation is exactly the post-pass
fold of `disconnect` over the failing attempted pairs; the result
carries no error back to the sender. -/
theorem broadcast_attempts_all_connections (st : Registry) (cid : String)
    (failing : WS → Bool) (ex : Option String) :
    ((broadcast st cid failing).attempts
        = connPairs ((lookupA cid st).getD [])
      ∧ (broadcast st cid failing).state
        = ((connPairs ((lookupA cid st).getD [])).filter (fun p => failing p.2)).foldl
            (fun s p => disconnect s cid p.1 p.2) st)
    ∧ ((broadcast_except st cid failing ex).attempts
        = connPairs (((lookupA cid st).getD []).filter (fun p => !excludedUser ex p.1))
      ∧ (broadcast_except st cid failing ex).state
        = ((connPairs (((lookupA cid st).getD []).filter
              (fun p => !excludedUser ex p.1))).filter (fun p => failing p.2)).foldl
            (fun s p => disconnect s cid p.1 p.2) st) := by
  constructor
  · unfold broadcast
    cases h₁ : lookupA cid st with
    | none => simp [connPairs]
    | some conv =>
      dsimp only
      by_cases hc : conv.isEmpty
      · have hnil : conv = [] := by simpa [List.isEmpty_iff] using hc
        subst hnil
        simp [connPairs]
      · rw [if_neg hc]
        dsimp only
        rw [sendPass_eq]
        exact ⟨rfl, rfl⟩
  · unfold broadcast_except
    cases h₁ : lookupA cid st with
    | none => simp [connPairs]
    | some conv =>
      dsimp only
      by_cases hc : conv.isEmpty
      · have hnil : conv = [] := by simpa [List.isEmpty_iff] using hc
        subst hnil
        simp [connPairs]
      · rw [if_neg hc]
        dsimp only
        rw [sendPass_eq]
        exact ⟨rfl, rfl⟩

/-! ## Connection-count lemmas for the presence transitions -/

theorem count_nil (uid : String) : get_user_connection_count [] uid = 0 := rfl

theorem count_cons (k : String) (v : UserConns) (rest : Registry) (uid : String) :
    get_user_connection_count ((k, v) :: rest) uid
      = ((lookupA uid v).getD []).length + get_user_connection_count rest uid := by
  simp [get_user_connection_count]

theorem count_insertA (cid uid : String) (conv₁ : UserConns) :
    ∀ st : Registry,
      get_user_connection_count (insertA cid conv₁ st) uid
          + ((lookupA uid ((lookupA cid st).getD [])).getD []).length
        = get_user_connection_count st uid + ((lookupA uid conv₁).getD []).length
  | [] => by simp [get_user_connection_count, insertA, lookupA]
  | (k, v) :: rest => by
    by_cases hk : k = cid
    · simp only [insertA, hk, if_pos, lookupA, if_true]
      rw [count_cons, count_cons]
      dsimp only [Option.getD_some]
      omega
    · simp only [insertA, hk, if_neg, if_false, lookupA]
      rw [count_cons, count_cons]
      have ih := count_insertA cid uid conv₁ rest
      omega

theorem count_eraseA (cid uid : String) :
    ∀ st : Registry,
      get_user_connection_count (eraseA cid st) uid
          + ((lookupA uid ((lookupA cid st).getD [])).getD []).length
        = get_user_connection_count st uid
  | [] => by simp [get_user_connection_count, eraseA, lookupA]
  | (k, v) :: rest => by
    by_cases hk : k = cid
    · simp only [eraseA, hk, if_pos, lookupA, if_true]
      rw [count_cons]
      dsimp only [Option.getD_some]
      omega
    · simp only [eraseA, hk, if_neg, if_false, lookupA]
      rw [count_cons, count_cons]
      have ih := count_eraseA cid uid rest
      omega

theorem count_connect (st : Registry) (cid uid : String) (ws : WS) :
    (wsRegistered st cid uid ws = false →
      get_user_connection_count (connect st cid uid ws) uid
        = get_user_connection_count st uid + 1)
    ∧ (wsRegistered st cid uid ws = true →
      get_user_connection_count (connect st cid uid ws) uid
        = get_user_connection_count st uid) := by
  constructor
  · intro hreg
    have hmem : ws ∉ (lookupA uid ((lookupA cid st).getD [])).getD [] := by
      intro hmem
      have hct : wsRegistered st cid uid ws = true := by
        unfold wsRegistered
        exact List.elem_iff.mpr hmem
      rw [hct] at hreg
      exact Bool.true_eq_false.mp hreg
    unfold connect
    dsimp only
    rw [if_neg hmem]
    have hkey := count_insertA cid uid
      (insertA uid ((lookupA uid ((lookupA cid st).getD [])).getD [] ++ [ws])
        ((lookupA cid st).getD [])) st
    rw [lookupA_insertA_self] at hkey
    simp only [Option.getD_some, List.length_append, List.length_singleton] at hkey
    omega
  · intro hreg
    have hmem : ws ∈ (lookupA uid ((lookupA cid st).getD [])).getD [] := by
      unfold wsRegistered at hreg
      exact List.elem_iff.mp hreg
    unfold connect
    dsimp only
    rw [if_pos hmem]
    have hkey := count_insertA cid uid
      (insertA uid ((lookupA uid ((lookupA cid st).getD [])).getD [])
        ((lookupA cid st).getD [])) st
    rw [lookupA_insertA_self] at hkey
    simp only [Option.getD_some] at hkey
    omega

theorem count_disconnect (st : Registry) (cid uid : String) (ws : WS)
    (hnd : StateNoDup st) (hreg : wsRegistered st cid uid ws = true) :
    get_user_connection_count (disconnect st cid uid ws) uid + 1
      = get_user_connection_count st uid := by
  unfold wsRegistered at hreg
  cases h₁ : lookupA cid st with
  | none =>
    rw [h₁] at hreg
    simp [lookupA] at hreg
  | some conv =>
    rw [h₁] at hreg
    simp only [Option.getD_some] at hreg
    cases h₂ : lookupA uid conv with
    | none =>
      rw [h₂] at hreg
      simp [lookupA] at hreg
    | some conns =>
      rw [h₂] at hreg
      simp only [Option.getD_some] at hreg
      have hws : ws ∈ conns := List.elem_iff.mp hreg
      have hcnil : conv ≠ [] := conv_ne_nil_of_lookupA uid conns conv h₂
      have hccnil : conns ≠ [] := List.ne_nil_of_mem hws
      have hlen : (conns.erase ws).length = conns.length - 1 :=
        List.length_erase_of_mem hws
      have hpos : 1 ≤ conns.length := List.length_pos.mpr hccnil
      have hconvnd : (conv.map Prod.fst).Nodup :=
        (hnd.2 (cid, conv) (lookupA_mem cid conv st h₁)).1
      rw [disconnect_found st cid uid ws conv conns h₁ h₂ hcnil hccnil]
      by_cases he : (conns.erase ws).isEmpty
      · have hone : conns.length = 1 := by
          have : (conns.erase ws).length = 0 := by
            rw [List.isEmpty_iff] at he
            rw [he]
            rfl
          omega
        rw [if_pos he]
        by_cases hce : (eraseA uid conv).isEmpty
        · rw [if_pos hce]
          have hkey := count_eraseA cid uid st
          rw [h₁] at hkey
          simp only [Option.getD_some] at hkey
          rw [h₂] at hkey
          simp only [Option.getD_some] at hkey
          omega
        · rw [if_neg hce]
          have hkey := count_insertA cid uid (eraseA uid conv) st
          rw [h₁] at hkey
          simp only [Option.getD_some] at hkey
          rw [h₂] at hkey
          simp only [Option.getD_some] at hkey
          rw [lookupA_eraseA_self uid conv hconvnd] at hkey
          simp only [Option.getD_none, List.length_nil] at hkey
          omega
      · rw [if_neg he,
          if_neg (by simpa [List.isEmpty_iff] using insertA_ne_nil uid (conns.erase ws) conv)]
        have hkey := count_insertA cid uid (insertA uid (conns.erase ws) conv) st
        rw [h₁] at hkey
        simp only [Option.getD_some] at hkey
        rw [h₂] at hkey
        simp only [Option.getD_some] at hkey
        rw [lookupA_insertA_self uid (conns.erase ws) conv] at hkey
        simp only [Option.getD_some] at hkey
        omega

theorem wsRegistered_false_of_count_zero (st : Registry) (cid uid : String) (ws : WS)
    (h : get_user_connection_count st uid = 0) : wsRegistered st cid uid ws = false := by
  unfold wsRegistered
  cases h₁ : lookupA cid st with
  | none => simp [lookupA]
  | some conv =>
    simp only [Option.getD_some]
    have hmem : ((lookupA uid conv).getD []).length
        ∈ (st.map (fun p => ((lookupA uid p.2).getD []).length)) :=
      List.mem_map_of_mem _ (lookupA_mem cid conv st h₁)
    have hz : ((lookupA uid conv).getD []).length = 0 :=
      (List.sum_eq_zero_iff.mp h) _ hmem
    rw [List.length_eq_zero.mp hz]
    rfl

/-- C5: over session connect/disconnect events, a presence event is
emitted exactly at the connection-count boundary transitions of the
acting user — `online` iff the total count goes 0→1, `offline` (with
`last_seen`) iff it goes 1→0 — always excluding the acting user from
the broadcast; intermediate transitions emit nothing. -/
theorem presence_fires_iff_boundary (st : Registry) (e : SessionEvent)
    (hnd : StateNoDup st) (hok : eventOK st e) :
    ((∃ em, (sessionStep st e).2 = some em ∧ em.status = .online)
        ↔ (get_user_connection_count st e.uid = 0
           ∧ get_user_connection_count (sessionStep st e).1 e.uid = 1))
    ∧ ((∃ em, (sessionStep st e).2 = some em ∧ em.status = .offline)
        ↔ (get_user_connection_count st e.uid = 1
           ∧ get_user_connection_count (sessionStep st e).1 e.uid = 0))
    ∧ (∀ em, (sessionStep st e).2 = some em →
        em.user_id = e.uid ∧ em.exclude = some e.uid)
    ∧ ((sessionStep st e).2 = none
        ↔ ¬ ((get_user_connection_count st e.uid = 0
              ∧ get_user_connection_count (sessionStep st e).1 e.uid = 1)
             ∨ (get_user_connection_count st e.uid = 1
                ∧ get_user_connection_count (sessionStep st e).1 e.uid = 0))) := by
  cases e with
  | conn cid uid ws =>
    unfold sessionStep SessionEvent.uid
    dsimp only
    by_cases hprev : get_user_connection_count st uid = 0
    · have hfresh : wsRegistered st cid uid ws = false :=
        wsRegistered_false_of_count_zero st cid uid ws hprev
      have hafter : get_user_connection_count (connect st cid uid ws) uid
          = get_user_connection_count st uid + 1 :=
        (count_connect st cid uid ws).1 hfresh
      rw [if_pos hprev]
      refine ⟨?_, ?_, ?_, ?_⟩
      · simp only [Option.some_inj]
        constructor
        · intro _
          exact ⟨hprev, by omega⟩
        · intro _
          exact ⟨⟨uid, .online, none, some uid⟩, rfl, rfl⟩
      · constructor
        · rintro ⟨em, hem, hst⟩
          rw [Option.some_inj] at hem
          rw [← hem] at hst
          simp at hst
        · rintro ⟨h1, _⟩
          omega
      · intro em hem
        rw [Option.some_inj] at hem
        rw [← hem]
        exact ⟨rfl, rfl⟩
      · constructor
        · intro hnone
          simp at hnone
        · intro hcontra
          exact absurd (Or.inl ⟨hprev, by omega⟩) hcontra
    · rw [if_neg hprev]
      have hcases : get_user_connection_count (connect st cid uid ws) uid
            = get_user_connection_count st uid + 1
          ∨ get_user_connection_count (connect st cid uid ws) uid
            = get_user_connection_count st uid := by
        cases hr : wsRegistered st cid uid ws with
        | false => exact Or.inl ((count_connect st cid uid ws).1 hr)
        | true => exact Or.inr ((count_connect st cid uid ws).2 hr)
      refine ⟨?_, ?_, ?_, ?_⟩
      · constructor
        · rintro ⟨em, hem, _⟩
          simp at hem
        · rintro ⟨h1, _⟩
          exact absurd h1 hprev
      · constructor
        · rintro ⟨em, hem, _⟩
          simp at hem
        · rintro ⟨_, h2⟩
          omega
      · intro em hem
        simp at hem
      · constructor
        · intro _
          rintro (⟨h1, _⟩ | ⟨_, h2⟩)
          · exact hprev h1
          · omega
        · intro _
          rfl
  | disc cid uid ws now =>
    have hreg : wsRegistered st cid uid ws = true := hok
    have hcount := count_disconnect st cid uid ws hnd hreg
    unfold sessionStep SessionEvent.uid
    dsimp only
    by_cases hafter : get_user_connection_count (disconnect st cid uid ws) uid = 0
    · rw [if_pos hafter]
      refine ⟨?_, ?_, ?_, ?_⟩
      · constructor
        · rintro ⟨em, hem, hst⟩
          rw [Option.some_inj] at hem
          rw [← hem] at hst
          simp at hst
        · rintro ⟨h1, _⟩
          omega
      · simp only [Option.some_inj]
        constructor
        · intro _
          exact ⟨by omega, hafter⟩
        · intro _
          exact ⟨⟨uid, .offline, some now, some uid⟩, rfl, rfl⟩
      · intro em hem
        rw [Option.some_inj] at hem
        rw [← hem]
        exact ⟨rfl, rfl⟩
      · constructor
        · intro hnone
          simp at hnone
        · intro hcontra
          exact absurd (Or.inr ⟨by omega, hafter⟩) hcontra
    · rw [if_neg hafter]
      refine ⟨?_, ?_, ?_, ?_⟩
      · constructor
        · rintro ⟨em, hem, _⟩
          simp at hem
        · rintro ⟨h1, h2⟩
          omega
      · constructor
        · rintro ⟨em, hem, _⟩
          simp at hem
        · rintro ⟨_, h2⟩
          exact absurd h2 hafter
      · intro em hem
        simp at hem
      · constructor
        · intro _
          rintro (⟨h1, h2⟩ | ⟨_, h2⟩)
          · omega
          · exact hafter h2
        · intro _
          rfl

/-- C5 witness: removing user `u`'s last connection emits the offline
presence event with `last_seen`, excluding `u`. -/
theorem presence_fires_iff_boundary_witness :
    ∃ em, (sessionStep [("c", [("u", [1]), ("v", [2])])] (.disc "c" "u" 1 7)).2 = some em
      ∧ em.status = .offline :=
  (presence_fires_iff_boundary [("c", [("u", [1]), ("v", [2])])] (.disc "c" "u" 1 7)
    (by decide) (by decide)).2.1.mpr (by decide)

/-! ## Message read / delete theorems -/

/-- C1 counterexample: `mark_message_read` on a message whose `read_at`
is already `5` overwrites it to the later reader's instant `9` — the
write is unconditional (chat.py:190), so the earlier value is not
retained. -/
theorem mark_message_read_not_first_writer :
    readMsg.read_at = some 5
    ∧ (mark_message_read [readMsg] "m1" "c" (some 9) 9).2.map Message.read_at = [some 9]
    ∧ (mark_message_read [readMsg] "m1" "c" (some 9) 9).2 ≠ [readMsg] := by
  refine ⟨rfl, by decide, by decide⟩

/-- C1 (amended): `mark_message_read` is last-writer-wins — for any
found message, member reader and instant, it overwrites `read_at` with
the reader's instant regardless of any earlier value, and the
`message_read` receipt is still broadcast (to the conversation,
excluding the reader) for each such event. -/
theorem message_read_last_writer_wins (convs : Convs) (reg : Registry) (db : MessageDB)
    (cid uid mid : String) (now : Int) (failing : WS → Bool) (m : Message)
    (hmember : user_in_conversation convs cid uid = true)
    (hblank : pyStrip mid ≠ "")
    (hfind : findMessage db (pyStrip mid) cid = some m) :
    messageReadStep convs reg db cid uid (some mid) now failing
      = (commitRow db { m with read_at := some now },
         (broadcast_except reg cid failing (some uid)).state,
         .readReceipt (pyStrip mid) cid uid now
           (broadcast_except reg cid failing (some uid)).attempts) := by
  have hmark : mark_message_read db (pyStrip mid) cid (some now) now
      = (some { m with read_at := some now }, commitRow db { m with read_at := some now }) := by
    unfold mark_message_read
    rw [hfind]
    dsimp only
    simp only [Option.getD_some]
  have hhandle : handle_message_read convs db cid uid (pyStrip mid) now
      = (("ok", some now), commitRow db { m with read_at := some now }) := by
    unfold handle_message_read
    rw [hmember, if_neg (by decide : ¬ ((!true : Bool) = true)), hmark]
    dsimp only
    simp only [Option.getD_some]
  unfold messageReadStep
  dsimp only
  rw [if_neg hblank, hhandle]
  dsimp only
  rw [if_neg (by decide : ¬ ("ok" : String) = "forbidden"),
    if_neg (by decide : ¬ ("ok" : String) = "not_found"),
    if_neg (not_not_intro rfl)]

/-- C1 witness: a second reader's `message_read` on `readMsg` (already
read at instant 5) rewrites `read_at` to 9 and broadcasts the receipt. -/
theorem message_read_last_writer_wins_witness :
    messageReadStep [("c", ["bob"])] [] [readMsg] "c" "bob" (some "m1") 9 (fun _ => false)
      = (commitRow [readMsg] { readMsg with read_at := some 9 },
         (broadcast_except [] "c" (fun _ => false) (some "bob")).state,
         .readReceipt "m1" "c" "bob" 9
           (broadcast_except [] "c" (fun _ => false) (some "bob")).attempts) :=
  message_read_last_writer_wins [("c", ["bob"])] [] [readMsg] "c" "bob" "m1" 9
    (fun _ => false) readMsg (by decide) (by decide) (by decide)

/-- C9: `soft_delete_message` succeeds only for the message's sender —
on success it sets `is_deleted`, clears `content`, bumps `updated_at`
and the `message_delete` event is broadcast with `content = ""` and
`is_deleted = true`; a non-sender requester gets `forbidden` and the
store is unchanged. -/
theorem message_delete_owner_only (convs : Convs) (reg : Registry) (db : MessageDB)
    (cid uid mid : String) (now : Int) (failing : WS → Bool) (m : Message)
    (hmember : user_in_conversation convs cid uid = true)
    (hblank : pyStrip mid ≠ "")
    (hfind : db.find? (deleteFilter (pyStrip mid) (some cid)) = some m) :
    (m.sender_id = uid →
      soft_delete_message db (pyStrip mid) uid (some cid) now
          = (("ok", some { m with is_deleted := true, content := "", updated_at := some now }),
             commitRow db { m with is_deleted := true, content := "", updated_at := some now })
        ∧ messageDeleteStep convs reg db cid uid (some mid) now failing
          = (commitRow db { m with is_deleted := true, content := "", updated_at := some now },
             (broadcast reg cid failing).state,
             .deleteBroadcast cid uid ⟨m.id, m.sender_id, true, "", some now⟩
               (broadcast reg cid failing).attempts))
    ∧ (m.sender_id ≠ uid →
      soft_delete_message db (pyStrip mid) uid (some cid) now = (("forbidden", none), db)
        ∧ messageDeleteStep convs reg db cid uid (some mid) now failing
          = (db, reg, .errorToSelf "Not authorized to delete this message"))
    ∧ ((soft_delete_message db (pyStrip mid) uid (some cid) now).1.1 = "ok" →
        m.sender_id = uid) := by
  refine ⟨?_, ?_, ?_⟩
  · intro hsender
    have hsoft : soft_delete_message db (pyStrip mid) uid (some cid) now
        = (("ok", some { m with is_deleted := true, content := "", updated_at := some now }),
           commitRow db { m with is_deleted := true, content := "", updated_at := some now }) := by
      unfold soft_delete_message
      rw [hfind]
      dsimp only
      rw [if_neg (not_not_intro hsender)]
    refine ⟨hsoft, ?_⟩
    have hhandle : handle_message_delete convs db cid uid (pyStrip mid) now
        = (("ok", some ⟨m.id, m.sender_id, true, "", some now⟩),
           commitRow db { m with is_deleted := true, content := "", updated_at := some now }) := by
      unfold handle_message_delete
      rw [hmember, if_neg (by decide : ¬ ((!true : Bool) = true))]
      dsimp only
      rw [hsoft]
      dsimp only
      rw [if_neg (not_not_intro rfl)]
    unfold messageDeleteStep
    dsimp only
    rw [if_neg hblank, hhandle]
    dsimp only
    rw [if_neg (by decide : ¬ ("ok" : String) = "forbidden"),
      if_neg (by decide : ¬ ("ok" : String) = "not_found"),
      if_neg (not_not_intro rfl)]
  · intro hsender
    have hsoft : soft_delete_message db (pyStrip mid) uid (some cid) now
        = (("forbidden", none), db) := by
      unfold soft_delete_message
      rw [hfind]
      dsimp only
      rw [if_pos hsender]
    refine ⟨hsoft, ?_⟩
    have hhandle : handle_message_delete convs db cid uid (pyStrip mid) now
        = (("forbidden", none), db) := by
      unfold handle_message_delete
      rw [hmember, if_neg (by decide : ¬ ((!true : Bool) = true))]
      dsimp only
      rw [hsoft]
      dsimp only
      rw [if_pos (by decide : ("forbidden" : String) ≠ "ok")]
    unfold messageDeleteStep
    dsimp only
    rw [if_neg hblank, hhandle]
    dsimp only
    rw [if_pos rfl]
  · intro hok
    by_cases hs : m.sender_id = uid
    · exact hs
    · exfalso
      have hsoft : soft_delete_message db (pyStrip mid) uid (some cid) now
          = (("forbidden", none), db) := by
        unfold soft_delete_message
        rw [hfind]
        dsimp only
        rw [if_pos hs]
      rw [hsoft] at hok
      have hbad : ("forbidden" : String) = "ok" := by simpa using hok
      exact absurd hbad (by decide)

/-- C9 witness: `alice` deletes her own message (delete event broadcast
with empty content and the deleted flag), while `bob`, a member who is
not the sender, gets `forbidden` and the store stays intact. -/
theorem message_delete_owner_only_witness :
    (soft_delete_message [delMsg] "m1" "alice" (some "c") 9
        = (("ok", some { delMsg with is_deleted := true, content := "", updated_at := some 9 }),
           commitRow [delMsg] { delMsg with is_deleted := true, content := "", updated_at := some 9 })
      ∧ messageDeleteStep [("c", ["alice", "bob"])] [] [delMsg] "c" "alice" (some "m1") 9
          (fun _ => false)
        = (commitRow [delMsg] { delMsg with is_deleted := true, content := "", updated_at := some 9 },
           (broadcast [] "c" (fun _ => false)).state,
           .deleteBroadcast "c" "alice" ⟨"m1", "alice", true, "", some 9⟩
             (broadcast [] "c" (fun _ => false)).attempts))
    ∧ (soft_delete_message [delMsg] "m1" "bob" (some "c") 9 = (("forbidden", none), [delMsg])
      ∧ messageDeleteStep [("c", ["alice", "bob"])] [] [delMsg] "c" "bob" (some "m1") 9
          (fun _ => false)
        = ([delMsg], [], .errorToSelf "Not authorized to delete this message")) :=
  ⟨(message_delete_owner_only [("c", ["alice", "bob"])] [] [delMsg] "c" "alice" "m1" 9
      (fun _ => false) delMsg (by decide) (by decide) (by decide)).1 (by decide),
   (message_delete_owner_only [("c", ["alice", "bob"])] [] [delMsg] "c" "bob" "m1" 9
      (fun _ => false) delMsg (by decide) (by decide) (by decide)).2.1 (by decide)⟩

/-! ## Database length lemmas (no branch of the loop appends a row
except the persist path) -/

theorem commitRow_length (db : MessageDB) (m : Message) :
    (commitRow db m).length = db.length := by
  simp [commitRow]

theorem mark_message_read_db_length (db : MessageDB) (mid cid : String)
    (ro : Option Int) (now : Int) :
    (mark_message_read db mid cid ro now).2.length = db.length := by
  unfold mark_message_read
  cases h : findMessage db mid cid with
  | none => rfl
  | some m =>
    dsimp only
    exact commitRow_length db _

theorem soft_delete_db_length (db : MessageDB) (mid r : String) (cid : Option String)
    (now : Int) : (soft_delete_message db mid r cid now).2.length = db.length := by
  unfold soft_delete_message
  cases h : db.find? (deleteFilter mid cid) with
  | none => rfl
  | some m =>
    dsimp only
    by_cases hs : m.sender_id ≠ r
    · rw [if_pos hs]
    · rw [if_neg hs]
      exact commitRow_length db _

theorem handle_read_db_length (convs : Convs) (db : MessageDB) (cid uid mid : String)
    (now : Int) : (handle_message_read convs db cid uid mid now).2.length = db.length := by
  unfold handle_message_read
  cases hm : user_in_conversation convs cid uid with
  | false => rfl
  | true =>
    rw [if_neg (by decide : ¬ ((!true : Bool) = true))]
    have hlen := mark_message_read_db_length db mid cid (some now) now
    rcases hm2 : mark_message_read db mid cid (some now) now with ⟨o, db₁⟩
    rw [hm2] at hlen
    cases o <;> simpa using hlen

theorem handle_delete_db_length (convs : Convs) (db : MessageDB) (cid uid mid : String)
    (now : Int) : (handle_message_delete convs db cid uid mid now).2.length = db.length := by
  unfold handle_message_delete
  cases hm : user_in_conversation convs cid uid with
  | false => rfl
  | true =>
    rw [if_neg (by decide : ¬ ((!true : Bool) = true))]
    dsimp only
    by_cases hok : (soft_delete_message db mid uid (some cid) now).1.1 ≠ "ok"
    · rw [if_pos hok]
      exact soft_delete_db_length db mid uid (some cid) now
    · rw [if_neg hok]
      cases hm2 : (soft_delete_message db mid uid (some cid) now).1.2 with
      | none => exact soft_delete_db_length db mid uid (some cid) now
      | some m => exact soft_delete_db_length db mid uid (some cid) now

theorem messageReadStep_db_length (convs : Convs) (reg : Registry) (db : MessageDB)
    (cid uid : String) (mid? : Option String) (now : Int) (failing : WS → Bool) :
    (messageReadStep convs reg db cid uid mid? now failing).1.length = db.length := by
  unfold messageReadStep
  cases mid? with
  | none => rfl
  | some mid =>
    dsimp only
    by_cases hb : pyStrip mid = ""
    · rw [if_pos hb]
    · rw [if_neg hb]
      have hlen := handle_read_db_length convs db cid uid (pyStrip mid) now
      by_cases h1 : (handle_message_read convs db cid uid (pyStrip mid) now).1.1 = "forbidden"
      · rw [if_pos h1]
        exact hlen
      · rw [if_neg h1]
        by_cases h2 : (handle_message_read convs db cid uid (pyStrip mid) now).1.1 = "not_found"
        · rw [if_pos h2]
          exact hlen
        · rw [if_neg h2]
          by_cases h3 : (handle_message_read convs db cid uid (pyStrip mid) now).1.1 ≠ "ok"
          · rw [if_pos h3]
            exact hlen
          · rw [if_neg h3]
            cases h4 : (handle_message_read convs db cid uid (pyStrip mid) now).1.2 with
            | none => exact hlen
            | some t => exact hlen

theorem messageDeleteStep_db_length (convs : Convs) (reg : Registry) (db : MessageDB)
    (cid uid : String) (mid? : Option String) (now : Int) (failing : WS → Bool) :
    (messageDeleteStep convs reg db cid uid mid? now failing).1.length = db.length := by
  unfold messageDeleteStep
  cases mid? with
  | none => rfl
  | some mid =>
    dsimp only
    by_cases hb : pyStrip mid = ""
    · rw [if_pos hb]
    · rw [if_neg hb]
      have hlen := handle_delete_db_length convs db cid uid (pyStrip mid) now
      by_cases h1 : (handle_message_delete convs db cid uid (pyStrip mid) now).1.1 = "forbidden"
      · rw [if_pos h1]
        exact hlen
      · rw [if_neg h1]
        by_cases h2 : (handle_message_delete convs db cid uid (pyStrip mid) now).1.1 = "not_found"
        · rw [if_pos h2]
          exact hlen
        · rw [if_neg h2]
          by_cases h3 : (handle_message_delete convs db cid uid (pyStrip mid) now).1.1 ≠ "ok"
          · rw [if_pos h3]
            exact hlen
          · rw [if_neg h3]
            cases h4 : (handle_message_delete convs db cid uid (pyStrip mid) now).1.2 with
            | none => exact hlen
            | some payload => exact hlen

/-! ## wsStep branch lemmas -/

theorem wsStep_generic_reject (convs : Convs) (reg : Registry) (db : MessageDB)
    (rl : RLState) (cid uid : String) (f : Frame) (now : Int) (newId : String)
    (failing : WS → Bool)
    (hg : (allow rl ("ws:" ++ uid) WS_EVENT_LIMIT WS_EVENT_WINDOW_SECONDS now).1 = false) :
    wsStep convs reg db rl cid uid (some f) now newId failing
      = (db, (allow rl ("ws:" ++ uid) WS_EVENT_LIMIT WS_EVENT_WINDOW_SECONDS now).2, reg,
         .errorToSelf "Rate limit exceeded. Please slow down.") := by
  unfold wsStep
  dsimp only
  rw [hg, if_pos (by decide : (!(false : Bool)) = true)]

theorem wsStep_typing (convs : Convs) (reg : Registry) (db : MessageDB)
    (rl : RLState) (cid uid : String) (f : Frame) (now : Int) (newId : String)
    (failing : WS → Bool)
    (hg : (allow rl ("ws:" ++ uid) WS_EVENT_LIMIT WS_EVENT_WINDOW_SECONDS now).1 = true)
    (hty : resolvedType f = "typing_start" ∨ resolvedType f = "typing_stop") :
    wsStep convs reg db rl cid uid (some f) now newId failing
      = (db, (allow rl ("ws:" ++ uid) WS_EVENT_LIMIT WS_EVENT_WINDOW_SECONDS now).2,
         (broadcast_except reg cid failing (some uid)).state,
         .typingBroadcast (resolvedType f)
           (broadcast_except reg cid failing (some uid)).attempts) := by
  unfold wsStep
  dsimp only
  rw [hg, if_neg (by decide : ¬ ((!(true : Bool)) = true)), if_pos hty]

theorem wsStep_delete_branch (convs : Convs) (reg : Registry) (db : MessageDB)
    (rl : RLState) (cid uid : String) (f : Frame) (now : Int) (newId : String)
    (failing : WS → Bool)
    (hg : (allow rl ("ws:" ++ uid) WS_EVENT_LIMIT WS_EVENT_WINDOW_SECONDS now).1 = true)
    (h1 : resolvedType f ≠ "typing_start") (h2 : resolvedType f ≠ "typing_stop")
    (h3 : resolvedType f = "message_delete") :
    wsStep convs reg db rl cid uid (some f) now newId failing
      = ((messageDeleteStep convs reg db cid uid (frameMessageId f) now failing).1,
         (allow rl ("ws:" ++ uid) WS_EVENT_LIMIT WS_EVENT_WINDOW_SECONDS now).2,
         (messageDeleteStep convs reg db cid uid (frameMessageId f) now failing).2.1,
         (messageDeleteStep convs reg db cid uid (frameMessageId f) now failing).2.2) := by
  unfold wsStep
  dsimp only
  rw [hg, if_neg (by decide : ¬ ((!(true : Bool)) = true)),
    if_neg (fun h => h.elim h1 h2), if_pos h3]

theorem wsStep_read_branch (convs : Convs) (reg : Registry) (db : MessageDB)
    (rl : RLState) (cid uid : String) (f : Frame) (now : Int) (newId : String)
    (failing : WS → Bool)
    (hg : (allow rl ("ws:" ++ uid) WS_EVENT_LIMIT WS_EVENT_WINDOW_SECONDS now).1 = true)
    (h1 : resolvedType f ≠ "typing_start") (h2 : resolvedType f ≠ "typing_stop")
    (h3 : resolvedType f ≠ "message_delete") (h4 : resolvedType f = "message_read") :
    wsStep convs reg db rl cid uid (some f) now newId failing
      = ((messageReadStep convs reg db cid uid (frameMessageId f) now failing).1,
         (allow rl ("ws:" ++ uid) WS_EVENT_LIMIT WS_EVENT_WINDOW_SECONDS now).2,
         (messageReadStep convs reg db cid uid (frameMessageId f) now failing).2.1,
         (messageReadStep convs reg db cid uid (frameMessageId f) now failing).2.2) := by
  unfold wsStep
  dsimp only
  rw [hg, if_neg (by decide : ¬ ((!(true : Bool)) = true)),
    if_neg (fun h => h.elim h1 h2), if_neg h3, if_pos h4]

theorem wsStep_send_reject (convs : Convs) (reg : Registry) (db : MessageDB)
    (rl : RLState) (cid uid : String) (f : Frame) (now : Int) (newId : String)
    (failing : WS → Bool)
    (hg : (allow rl ("ws:" ++ uid) WS_EVENT_LIMIT WS_EVENT_WINDOW_SECONDS now).1 = true)
    (h1 : resolvedType f ≠ "typing_start") (h2 : resolvedType f ≠ "typing_stop")
    (h3 : resolvedType f ≠ "message_delete") (h4 : resolvedType f ≠ "message_read")
    (hm : resolvedType f = "message")
    (hs : (allow (allow rl ("ws:" ++ uid) WS_EVENT_LIMIT WS_EVENT_WINDOW_SECONDS now).2
        ("msg:" ++ cid ++ ":" ++ uid) MESSAGE_EVENT_LIMIT MESSAGE_EVENT_WINDOW_SECONDS
        now).1 = false) :
    wsStep convs reg db rl cid uid (some f) now newId failing
      = (db, (allow (allow rl ("ws:" ++ uid) WS_EVENT_LIMIT WS_EVENT_WINDOW_SECONDS now).2
           ("msg:" ++ cid ++ ":" ++ uid) MESSAGE_EVENT_LIMIT MESSAGE_EVENT_WINDOW_SECONDS now).2,
         reg, .errorToSelf "Too many messages. Please slow down.") := by
  unfold wsStep
  dsimp only
  rw [hg, if_neg (by decide : ¬ ((!(true : Bool)) = true)),
    if_neg (fun h => h.elim h1 h2), if_neg h3, if_neg h4, if_pos hm, hs,
    if_pos (by decide : (!(false : Bool)) = true)]

theorem wsStep_content_missing (convs : Convs) (reg : Registry) (db : MessageDB)
    (rl : RLState) (cid uid : String) (f : Frame) (now : Int) (newId : String)
    (failing : WS → Bool)
    (hg : (allow rl ("ws:" ++ uid) WS_EVENT_LIMIT WS_EVENT_WINDOW_SECONDS now).1 = true)
    (h1 : resolvedType f ≠ "typing_start") (h2 : resolvedType f ≠ "typing_stop")
    (h3 : resolvedType f ≠ "message_delete") (h4 : resolvedType f ≠ "message_read")
    (hsend : (if resolvedType f = "message"
        then allow (allow rl ("ws:" ++ uid) WS_EVENT_LIMIT WS_EVENT_WINDOW_SECONDS now).2
          ("msg:" ++ cid ++ ":" ++ uid) MESSAGE_EVENT_LIMIT MESSAGE_EVENT_WINDOW_SECONDS now
        else (true, (allow rl ("ws:" ++ uid) WS_EVENT_LIMIT WS_EVENT_WINDOW_SECONDS now).2)).1
        = true)
    (hc : f.content? = none) :
    wsStep convs reg db rl cid uid (some f) now newId failing
      = (db, (if resolvedType f = "message"
          then allow (allow rl ("ws:" ++ uid) WS_EVENT_LIMIT WS_EVENT_WINDOW_SECONDS now).2
            ("msg:" ++ cid ++ ":" ++ uid) MESSAGE_EVENT_LIMIT MESSAGE_EVENT_WINDOW_SECONDS now
          else (true, (allow rl ("ws:" ++ uid) WS_EVENT_LIMIT WS_EVENT_WINDOW_SECONDS now).2)).2,
         reg, .errorToSelf "Message content is required") := by
  unfold wsStep
  dsimp only
  rw [hg, if_neg (by decide : ¬ ((!(true : Bool)) = true)),
    if_neg (fun h => h.elim h1 h2), if_neg h3, if_neg h4, hsend,
    if_neg (by decide : ¬ ((!(true : Bool)) = true)), hc]

theorem wsStep_content_blank (convs : Convs) (reg : Registry) (db : MessageDB)
    (rl : RLState) (cid uid : String) (f : Frame) (now : Int) (newId : String)
    (failing : WS → Bool) (c : String)
    (hg : (allow rl ("ws:" ++ uid) WS_EVENT_LIMIT WS_EVENT_WINDOW_SECONDS now).1 = true)
    (h1 : resolvedType f ≠ "typing_start") (h2 : resolvedType f ≠ "typing_stop")
    (h3 : resolvedType f ≠ "message_delete") (h4 : resolvedType f ≠ "message_read")
    (hsend : (if resolvedType f = "message"
        then allow (allow rl ("ws:" ++ uid) WS_EVENT_LIMIT WS_EVENT_WINDOW_SECONDS now).2
          ("msg:" ++ cid ++ ":" ++ uid) MESSAGE_EVENT_LIMIT MESSAGE_EVENT_WINDOW_SECONDS now
        else (true, (allow rl ("ws:" ++ uid) WS_EVENT_LIMIT WS_EVENT_WINDOW_SECONDS now).2)).1
        = true)
    (hc : f.content? = some c) (hblank : pyStrip c = "") :
    wsStep convs reg db rl cid uid (some f) now newId failing
      = (db, (if resolvedType f = "message"
          then allow (allow rl ("ws:" ++ uid) WS_EVENT_LIMIT WS_EVENT_WINDOW_SECONDS now).2
            ("msg:" ++ cid ++ ":" ++ uid) MESSAGE_EVENT_LIMIT MESSAGE_EVENT_WINDOW_SECONDS now
          else (true, (allow rl ("ws:" ++ uid) WS_EVENT_LIMIT WS_EVENT_WINDOW_SECONDS now).2)).2,
         reg, .errorToSelf "Message content is required") := by
  unfold wsStep
  dsimp only
  rw [hg, if_neg (by decide : ¬ ((!(true : Bool)) = true)),
    if_neg (fun h => h.elim h1 h2), if_neg h3, if_neg h4, hsend,
    if_neg (by decide : ¬ ((!(true : Bool)) = true)), hc]
  dsimp only
  rw [if_pos hblank]

theorem wsStep_persist (convs : Convs) (reg : Registry) (db : MessageDB)
    (rl : RLState) (cid uid : String) (f : Frame) (now : Int) (newId : String)
    (failing : WS → Bool) (c : String)
    (hg : (allow rl ("ws:" ++ uid) WS_EVENT_LIMIT WS_EVENT_WINDOW_SECONDS now).1 = true)
    (h1 : resolvedType f ≠ "typing_start") (h2 : resolvedType f ≠ "typing_stop")
    (h3 : resolvedType f ≠ "message_delete") (h4 : resolvedType f ≠ "message_read")
    (hsend : (if resolvedType f = "message"
        then allow (allow rl ("ws:" ++ uid) WS_EVENT_LIMIT WS_EVENT_WINDOW_SECONDS now).2
          ("msg:" ++ cid ++ ":" ++ uid) MESSAGE_EVENT_LIMIT MESSAGE_EVENT_WINDOW_SECONDS now
        else (true, (allow rl ("ws:" ++ uid) WS_EVENT_LIMIT WS_EVENT_WINDOW_SECONDS now).2)).1
        = true)
    (hc : f.content? = some c) (hblank : pyStrip c ≠ "") :
    wsStep convs reg db rl cid uid (some f) now newId failing
      = (db ++ [(create_message db cid uid (pyStrip c) now newId).1],
         (if resolvedType f = "message"
          then allow (allow rl ("ws:" ++ uid) WS_EVENT_LIMIT WS_EVENT_WINDOW_SECONDS now).2
            ("msg:" ++ cid ++ ":" ++ uid) MESSAGE_EVENT_LIMIT MESSAGE_EVENT_WINDOW_SECONDS now
          else (true, (allow rl ("ws:" ++ uid) WS_EVENT_LIMIT WS_EVENT_WINDOW_SECONDS now).2)).2,
         (broadcast reg cid failing).state,
         .messageBroadcast (create_message db cid uid (pyStrip c) now newId).1
           (broadcast reg cid failing).attempts) := by
  unfold wsStep
  dsimp only
  rw [hg, if_neg (by decide : ¬ ((!(true : Bool)) = true)),
    if_neg (fun h => h.elim h1 h2), if_neg h3, if_neg h4, hsend,
    if_neg (by decide : ¬ ((!(true : Bool)) = true)), hc]
  dsimp only
  rw [if_neg hblank]
  rfl

/-- C2 counterexample: a frame with the unrecognised type `"bogus"` and
non-blank content falls through every dispatch branch into the persist
path — a message is stored although the resolved type is neither
`"message"` nor absent, and the limiter state afterwards holds only the
generic key: the per-(conversation,user) send limit was never
consulted. -/
theorem wsStep_unknown_type_persists_bypassing_send_limit :
    (wsStep [("c", ["u"])] [("c", [("u", [1])])] [] [] "c" "u" (some bogusFrame) 0 "mid1"
        (fun _ => false)).1.length = 1
    ∧ (wsStep [("c", ["u"])] [("c", [("u", [1])])] [] [] "c" "u" (some bogusFrame) 0 "mid1"
        (fun _ => false)).2.1 = [("ws:u", [0])]
    ∧ resolvedType bogusFrame ≠ "message" ∧ bogusFrame.type? ≠ none := by
  refine ⟨by decide, by decide, by decide, by decide⟩

/-- C2 (amended): within the ACTIVE loop, a message is persisted exactly
for frames that pass the generic per-user limit, whose resolved type is
none of the four handled events, whose content is a non-blank string,
and — only when the resolved type is exactly `"message"` — that also
pass the stricter per-(conversation,user) send limit; a frame with an
unrecognised type is persisted after the generic limit alone, leaving
the send limiter untouched (send-limit bypass), and a non-object frame
persists nothing. -/
theorem wsStep_persist_characterization (convs : Convs) (reg : Registry) (db : MessageDB)
    (rl : RLState) (cid uid : String) (f : Frame) (now : Int) (newId : String)
    (failing : WS → Bool) :
    ((∃ msg, (wsStep convs reg db rl cid uid (some f) now newId failing).1 = db ++ [msg])
      ↔ ((allow rl ("ws:" ++ uid) WS_EVENT_LIMIT WS_EVENT_WINDOW_SECONDS now).1 = true
         ∧ resolvedType f ≠ "typing_start" ∧ resolvedType f ≠ "typing_stop"
         ∧ resolvedType f ≠ "message_delete" ∧ resolvedType f ≠ "message_read"
         ∧ (if resolvedType f = "message"
            then allow (allow rl ("ws:" ++ uid) WS_EVENT_LIMIT WS_EVENT_WINDOW_SECONDS now).2
              ("msg:" ++ cid ++ ":" ++ uid) MESSAGE_EVENT_LIMIT MESSAGE_EVENT_WINDOW_SECONDS now
            else (true, (allow rl ("ws:" ++ uid) WS_EVENT_LIMIT
              WS_EVENT_WINDOW_SECONDS now).2)).1 = true
         ∧ ∃ c, f.content? = some c ∧ pyStrip c ≠ ""))
    ∧ (∀ c : String,
        resolvedType f ≠ "typing_start" → resolvedType f ≠ "typing_stop"
        → resolvedType f ≠ "message_delete" → resolvedType f ≠ "message_read"
        → resolvedType f ≠ "message"
        → (allow rl ("ws:" ++ uid) WS_EVENT_LIMIT WS_EVENT_WINDOW_SECONDS now).1 = true
        → f.content? = some c → pyStrip c ≠ ""
        → wsStep convs reg db rl cid uid (some f) now newId failing
            = (db ++ [(create_message db cid uid (pyStrip c) now newId).1],
               (allow rl ("ws:" ++ uid) WS_EVENT_LIMIT WS_EVENT_WINDOW_SECONDS now).2,
               (broadcast reg cid failing).state,
               .messageBroadcast (create_message db cid uid (pyStrip c) now newId).1
                 (broadcast reg cid failing).attempts))
    ∧ (wsStep convs reg db rl cid uid none now newId failing).1 = db := by
  refine ⟨?_, ?_, rfl⟩
  · constructor
    · rintro ⟨msg, hmsg⟩
      have hg : (allow rl ("ws:" ++ uid) WS_EVENT_LIMIT WS_EVENT_WINDOW_SECONDS now).1
          = true := by
        by_contra hgn
        have hgf : (allow rl ("ws:" ++ uid) WS_EVENT_LIMIT
            WS_EVENT_WINDOW_SECONDS now).1 = false := by
          revert hgn
          cases (allow rl ("ws:" ++ uid) WS_EVENT_LIMIT WS_EVENT_WINDOW_SECONDS now).1 <;> simp
        rw [wsStep_generic_reject convs reg db rl cid uid f now newId failing hgf] at hmsg
        dsimp only at hmsg
        have hl := congrArg List.length hmsg
        simp at hl
      have h1 : resolvedType f ≠ "typing_start" := by
        intro h1
        rw [wsStep_typing convs reg db rl cid uid f now newId failing hg (Or.inl h1)] at hmsg
        dsimp only at hmsg
        have hl := congrArg List.length hmsg
        simp at hl
      have h2 : resolvedType f ≠ "typing_stop" := by
        intro h2
        rw [wsStep_typing convs reg db rl cid uid f now newId failing hg (Or.inr h2)] at hmsg
        dsimp only at hmsg
        have hl := congrArg List.length hmsg
        simp at hl
      have h3 : resolvedType f ≠ "message_delete" := by
        intro h3
        rw [wsStep_delete_branch convs reg db rl cid uid f now newId failing hg h1 h2 h3] at hmsg
        dsimp only at hmsg
        have hdl := messageDeleteStep_db_length convs reg db cid uid (frameMessageId f)
          now failing
        rw [hmsg] at hdl
        simp at hdl
      have h4 : resolvedType f ≠ "message_read" := by
        intro h4
        rw [wsStep_read_branch convs reg db rl cid uid f now newId failing
          hg h1 h2 h3 h4] at hmsg
        dsimp only at hmsg
        have hdl := messageReadStep_db_length convs reg db cid uid (frameMessageId f)
          now failing
        rw [hmsg] at hdl
        simp at hdl
      have hsend : (if resolvedType f = "message"
          then allow (allow rl ("ws:" ++ uid) WS_EVENT_LIMIT WS_EVENT_WINDOW_SECONDS now).2
            ("msg:" ++ cid ++ ":" ++ uid) MESSAGE_EVENT_LIMIT MESSAGE_EVENT_WINDOW_SECONDS now
          else (true, (allow rl ("ws:" ++ uid) WS_EVENT_LIMIT
            WS_EVENT_WINDOW_SECONDS now).2)).1 = true := by
        by_cases hm : resolvedType f = "message"
        · rw [if_pos hm]
          by_contra hsn
          have hsf : (allow (allow rl ("ws:" ++ uid) WS_EVENT_LIMIT
              WS_EVENT_WINDOW_SECONDS now).2 ("msg:" ++ cid ++ ":" ++ uid)
              MESSAGE_EVENT_LIMIT MESSAGE_EVENT_WINDOW_SECONDS now).1 = false := by
            revert hsn
            cases (allow (allow rl ("ws:" ++ uid) WS_EVENT_LIMIT
              WS_EVENT_WINDOW_SECONDS now).2 ("msg:" ++ cid ++ ":" ++ uid)
              MESSAGE_EVENT_LIMIT MESSAGE_EVENT_WINDOW_SECONDS now).1 <;> simp
          rw [wsStep_send_reject convs reg db rl cid uid f now newId failing
            hg h1 h2 h3 h4 hm hsf] at hmsg
          dsimp only at hmsg
          have hl := congrArg List.length hmsg
          simp at hl
        · rw [if_neg hm]
      cases hc : f.content? with
      | none =>
        exfalso
        rw [wsStep_content_missing convs reg db rl cid uid f now newId failing
          hg h1 h2 h3 h4 hsend hc] at hmsg
        dsimp only at hmsg
        have hl := congrArg List.length hmsg
        simp at hl
      | some c =>
        by_cases hblank : pyStrip c = ""
        · exfalso
          rw [wsStep_content_blank convs reg db rl cid uid f now newId failing c
            hg h1 h2 h3 h4 hsend hc hblank] at hmsg
          dsimp only at hmsg
          have hl := congrArg List.length hmsg
          simp at hl
        · exact ⟨hg, h1, h2, h3, h4, hsend, c, rfl, hblank⟩
    · rintro ⟨hg, h1, h2, h3, h4, hsend, c, hc, hblank⟩
      refine ⟨(create_message db cid uid (pyStrip c) now newId).1, ?_⟩
      rw [wsStep_persist convs reg db rl cid uid f now newId failing c
        hg h1 h2 h3 h4 hsend hc hblank]
  · intro c h1 h2 h3 h4 hm hg hc hblank
    have hsend : (if resolvedType f = "message"
        then allow (allow rl ("ws:" ++ uid) WS_EVENT_LIMIT WS_EVENT_WINDOW_SECONDS now).2
          ("msg:" ++ cid ++ ":" ++ uid) MESSAGE_EVENT_LIMIT MESSAGE_EVENT_WINDOW_SECONDS now
        else (true, (allow rl ("ws:" ++ uid) WS_EVENT_LIMIT
          WS_EVENT_WINDOW_SECONDS now).2)).1 = true := by
      rw [if_neg hm]
    have hp := wsStep_persist convs reg db rl cid uid f now newId failing c
      hg h1 h2 h3 h4 hsend hc hblank
    rw [hp, if_neg hm]

/-- C2 witness: the unrecognised-type frame is persisted with only the
generic limiter key recorded — the concrete bypass instance of the
amended characterization. -/
theorem wsStep_persist_characterization_witness :
    wsStep [("c", ["u"])] [("c", [("u", [1])])] [] [] "c" "u" (some bogusFrame) 0 "mid1"
        (fun _ => false)
      = ([] ++ [(create_message [] "c" "u" (pyStrip "hi") 0 "mid1").1],
         (allow [] ("ws:" ++ "u") WS_EVENT_LIMIT WS_EVENT_WINDOW_SECONDS 0).2,
         (broadcast [("c", [("u", [1])])] "c" (fun _ => false)).state,
         .messageBroadcast (create_message [] "c" "u" (pyStrip "hi") 0 "mid1").1
           (broadcast [("c", [("u", [1])])] "c" (fun _ => false)).attempts) :=
  (wsStep_persist_characterization [("c", ["u"])] [("c", [("u", [1])])] [] [] "c" "u"
      bogusFrame 0 "mid1" (fun _ => false)).2.1 "hi"
    (by decide) (by decide) (by decide) (by decide) (by decide) (by decide) (by decide)
    (by decide)

end Pulse
